import Mathlib

/-!
Shallow embedding of the household-finance persistence/service layer.

Two backends are modelled:
* `Native` — the drizzle/SQLite services (`expenseService`,
  `monthlySavingsService`, `budgetCategoryService`, `groceryListService`,
  `groceryItemService`, `priceHistoryService`, `financialSettingsService`)
  together with the relational schema of the migration snapshot
  (text primary keys, `monthly_savings_month_unique`,
  `budget_categories_name_unique`, `ON DELETE cascade` foreign keys).
* `Web` — the IndexedDB-backed services (`webExpenseService`, …) over the
  keyed object stores of `database-web.ts` (`put` = insert-or-replace,
  `delete` = no-op when absent).

Modelling conventions:
* money values (`real` columns) are embedded as `Int`;
* every call of `Date.now()` / `new Date()` consumes one tick of an explicit
  clock carried in the state, so wall-clock readings are the naturals
  `0, 1, 2, …` in call order; generated ids store the tick;
* a timestamp column holds `TS.dbDefault` when a row is inserted without the
  column (the schema default), `TS.tick t` when a service wrote
  `new Date().toISOString()` at clock value `t`, and `TS.null` when a service
  explicitly wrote `null`;
* a thrown storage error (SQLite primary-key / unique / foreign-key
  violation, or a TypeScript null dereference) makes the operation return
  `none`; all such paths are unreachable from the states the theorems use.
-/

/-- Value stored in a `created_at` / `updated_at` column (or timestamp
member of a web record). -/
inductive TS
  | dbDefault
  | tick (t : Nat)
  | null
deriving DecidableEq, Repr

namespace Native

/-- Row of the `expenses` table (migration snapshot: id primary key, month
notNull, charge_day nullable). The text id `Date.now().toString()` is kept
as the underlying tick. -/
structure Expense where
  id : Nat
  name : String
  amount : Int
  category : String
  dueDate : String
  month : String
  chargeDay : Option Nat := none
  isPaid : Bool := false
  isRecurring : Bool := false
  createdAt : TS := .dbDefault
  updatedAt : TS := .dbDefault
deriving DecidableEq, Repr

/-- `Omit<NewExpense, 'id'>` as passed to `expenseService.create`. -/
structure NewExpense where
  name : String
  amount : Int
  category : String
  dueDate : String
  month : String
  chargeDay : Option Nat := none
  isPaid : Bool := false
  isRecurring : Bool := false
deriving DecidableEq, Repr

/-- `Partial<NewExpense>` as passed to `expenseService.update` (the id and
timestamp members, which no call site supplies, are omitted). -/
structure ExpenseUpdate where
  name : Option String := none
  amount : Option Int := none
  category : Option String := none
  dueDate : Option String := none
  month : Option String := none
  chargeDay : Option (Option Nat) := none
  isPaid : Option Bool := none
  isRecurring : Option Bool := none
deriving DecidableEq, Repr

/-- Row of `monthly_savings`. The source id is the string
`` `${month}-${Date.now()}` ``; its month component always equals the
`month` column, so the model keeps the tick component in `idTick`. -/
structure Savings where
  idTick : Nat
  month : String
  income : Int
  totalExpenses : Int := 0
  totalSaved : Int := 0
  savingsGoal : Int
  createdAt : TS := .dbDefault
  updatedAt : TS := .dbDefault
deriving DecidableEq, Repr

/-- `Omit<NewMonthlySavings, 'id'>` for `monthlySavingsService.create`. -/
structure NewSavings where
  month : String
  income : Int
  savingsGoal : Int
  totalExpenses : Int := 0
  totalSaved : Int := 0
deriving DecidableEq, Repr

/-- `Partial<NewMonthlySavings>` for `monthlySavingsService.update`. -/
structure SavingsUpdate where
  month : Option String := none
  income : Option Int := none
  savingsGoal : Option Int := none
  totalExpenses : Option Int := none
  totalSaved : Option Int := none
deriving DecidableEq, Repr

/-- Row of `budget_categories` (id and name both unique). -/
structure Category where
  id : String
  name : String
  limit : Int
  spent : Int := 0
  month : String
  createdAt : TS := .dbDefault
  updatedAt : TS := .dbDefault
deriving DecidableEq, Repr

/-- `Omit<NewBudgetCategory, 'id'>` for `budgetCategoryService.create`. -/
structure NewCategory where
  name : String
  limit : Int
  spent : Int := 0
  month : String
deriving DecidableEq, Repr

/-- Row of `grocery_lists`. -/
structure GList where
  id : Nat
  name : String
  totalCost : Int := 0
  createdAt : TS := .dbDefault
  updatedAt : TS := .dbDefault
deriving DecidableEq, Repr

/-- Row of `grocery_items` (nullable `list_id` with `ON DELETE cascade`). -/
structure GItem where
  id : Nat
  listId : Option Nat := none
  name : String
  quantity : Nat
  pricePerUnit : Int
  totalCost : Int
  isPurchased : Bool := false
  storeLocation : Option String := none
  createdAt : TS := .dbDefault
  updatedAt : TS := .dbDefault
deriving DecidableEq, Repr

/-- `Omit<NewGroceryItem, 'id'>` for `groceryItemService.create`. -/
structure NewGItem where
  listId : Option Nat := none
  name : String
  quantity : Nat
  pricePerUnit : Int
  totalCost : Int
  isPurchased : Bool := false
  storeLocation : Option String := none
deriving DecidableEq, Repr

/-- `Partial<NewGroceryItem>` for `groceryItemService.update`. -/
structure GItemUpdate where
  listId : Option (Option Nat) := none
  name : Option String := none
  quantity : Option Nat := none
  pricePerUnit : Option Int := none
  totalCost : Option Int := none
  isPurchased : Option Bool := none
  storeLocation : Option (Option String) := none
deriving DecidableEq, Repr

/-- Row of `price_history` (nullable `item_id` with `ON DELETE cascade`);
`date` records the tick of the `new Date()` that produced the date string. -/
structure PHist where
  id : Nat
  itemId : Option Nat := none
  price : Int
  date : Nat
  createdAt : TS := .dbDefault
deriving DecidableEq, Repr

/-- Payload for `priceHistoryService.create`. -/
structure NewPHist where
  itemId : Option Nat := none
  price : Int
  date : Nat
deriving DecidableEq, Repr

/-- Row of `financial_settings`. -/
structure FSettings where
  id : String
  monthlyIncome : Int
  savingsGoal : Int
  currentSavings : Int := 0
  createdAt : TS := .dbDefault
  updatedAt : TS := .dbDefault
deriving DecidableEq, Repr

/-- The relational database: one list of rows per table (list order is
rowid order: inserts append), plus the wall clock. -/
structure St where
  expenses : List Expense := []
  savings : List Savings := []
  categories : List Category := []
  lists : List GList := []
  items : List GItem := []
  history : List PHist := []
  settings : List FSettings := []
  clock : Nat := 0
deriving DecidableEq, Repr

/-- One `Date.now()` / `new Date()` reading: returns the current tick and
advances the clock (successive readings are distinct). -/
def tick (st : St) : Nat × St := (st.clock, { st with clock := st.clock + 1 })

/-- `monthlySavingsService.getByMonth`: `select … where month = m`, `result[0] || null`. -/
def msGetByMonth (st : St) (m : String) : Option Savings :=
  (st.savings.filter (fun r => r.month == m)).head?

/-- `db.insert(monthlySavings)`: rejected by the `monthly_savings_month_unique`
index when a row for the month exists (the id `` `${month}-${now}` `` can only
collide when the month components collide, so the unique month index is the
binding constraint). -/
def msInsert (st : St) (r : Savings) : Option St :=
  if st.savings.any (fun x => x.month == r.month) then none
  else some { st with savings := st.savings ++ [r] }

/-- `monthlySavingsService.create`. -/
def msCreate (st : St) (d : NewSavings) : Option (Option Savings × St) := do
  let (t, st) := tick st
  let st ← msInsert st
    { idTick := t, month := d.month, income := d.income,
      totalExpenses := d.totalExpenses, totalSaved := d.totalSaved,
      savingsGoal := d.savingsGoal }
  pure (msGetByMonth st d.month, st)

/-- The row produced by `monthlySavingsService.update`'s `set` clause at
clock value `t`. -/
def applySavingsUpd (u : SavingsUpdate) (t : Nat) (r : Savings) : Savings :=
  { r with
    month := u.month.getD r.month, income := u.income.getD r.income,
    savingsGoal := u.savingsGoal.getD r.savingsGoal,
    totalExpenses := u.totalExpenses.getD r.totalExpenses,
    totalSaved := u.totalSaved.getD r.totalSaved,
    updatedAt := .tick t }

/-- `monthlySavingsService.update`: one `new Date()` for `updatedAt`, then
`update … where month = m`, then a re-read. -/
def msUpdate (st : St) (m : String) (u : SavingsUpdate) : Option Savings × St :=
  let (t, st) := tick st
  let st := { st with
    savings := st.savings.map (fun r => if r.month == m then applySavingsUpd u t r else r) }
  (msGetByMonth st m, st)

/-- `monthlySavingsService.getOrCreateForMonth`: reads
`financial_settings` with `limit 1`; `settingsData?.monthlyIncome || 0`
collapses an absent row (and a zero) to `0`. -/
def msGetOrCreateForMonth (st : St) (m : String) : Option (Option Savings × St) :=
  match msGetByMonth st m with
  | some r => some (some r, st)
  | none =>
    let sd := st.settings.head?
    msCreate st
      { month := m, income := (sd.map (·.monthlyIncome)).getD 0,
        savingsGoal := (sd.map (·.savingsGoal)).getD 0,
        totalExpenses := 0, totalSaved := 0 }

/-- `select({ total: sum(expenses.amount) }) … where month = m` followed by
`Number(result[0]?.total || 0)`: the sum of the amounts of the month's rows,
`0` when there are none. -/
def sumMonth (es : List Expense) (m : String) : Int :=
  ((es.filter (fun e => e.month == m)).map (·.amount)).sum

/-- `monthlySavingsService.updateMonthlyExpenses`: full recompute of the
month's expense total, then `get-or-create` of the savings row, then
`totalSaved = Math.max(0, income - totalExpenses)` written back.  A null
`monthData` would be dereferenced (`monthData.income`) and throw. -/
def msUpdateMonthlyExpenses (st : St) (m : String) : Option St := do
  let te := sumMonth st.expenses m
  let (md?, st) ← msGetOrCreateForMonth st m
  let md ← md?
  let (_, st) := msUpdate st m { totalExpenses := some te, totalSaved := some (max 0 (md.income - te)) }
  pure st

/-- `expenseService.getById`: `select … where id`, `result[0] || null`. -/
def expGetById (st : St) (i : Nat) : Option Expense :=
  (st.expenses.filter (fun e => e.id == i)).head?

/-- `expenseService.getByMonth`: `month || getCurrentMonth()` then
`select … where month = targetMonth` (the `createdAt` ordering is dropped:
callers in scope only test membership). `cm` is the current month. -/
def expGetByMonth (cm : String) (st : St) (m : String) : List Expense :=
  st.expenses.filter (fun e => e.month == (if m == "" then cm else m))

/-- `db.insert(expenses)`: rejected on a duplicate primary key. -/
def expInsert (st : St) (e : Expense) : Option St :=
  if st.expenses.any (fun x => x.id == e.id) then none
  else some { st with expenses := st.expenses ++ [e] }

/-- `expenseService.create`: id from `Date.now()`, `month || getCurrentMonth()`,
insert, recompute of the inserted month, re-read by id. -/
def expCreate (cm : String) (st : St) (p : NewExpense) : Option (Option Expense × St) := do
  let (t, st) := tick st
  let m := if p.month == "" then cm else p.month
  let st ← expInsert st
    { id := t, name := p.name, amount := p.amount, category := p.category,
      dueDate := p.dueDate, month := m, chargeDay := p.chargeDay,
      isPaid := p.isPaid, isRecurring := p.isRecurring }
  let st ← msUpdateMonthlyExpenses st m
  pure (expGetById st t, st)

/-- The row produced by `expenseService.update`'s `set` clause at clock `t`
(the update payload spread plus a fresh `updatedAt`). -/
def applyExpUpd (u : ExpenseUpdate) (t : Nat) (e : Expense) : Expense :=
  { e with
    name := u.name.getD e.name, amount := u.amount.getD e.amount,
    category := u.category.getD e.category, dueDate := u.dueDate.getD e.dueDate,
    month := u.month.getD e.month, chargeDay := u.chargeDay.getD e.chargeDay,
    isPaid := u.isPaid.getD e.isPaid, isRecurring := u.isRecurring.getD e.isRecurring,
    updatedAt := .tick t }

/-- `expenseService.update`: builds `updateData` (one `new Date()`), reads the
pre-mutation row, updates the store, then recomputes the savings of the
pre-mutation month (only) when the row existed, and re-reads. -/
def expUpdate (st : St) (i : Nat) (u : ExpenseUpdate) : Option (Option Expense × St) := do
  let (t, st) := tick st
  let pre := expGetById st i
  let st := { st with expenses := st.expenses.map (fun e => if e.id == i then applyExpUpd u t e else e) }
  let st ← match pre with
    | some e => msUpdateMonthlyExpenses st e.month
    | none => pure st
  pure (expGetById st i, st)

/-- `expenseService.delete`: reads the row before the store mutation, removes
it, then recomputes the savings of the pre-mutation month when it existed. -/
def expDelete (st : St) (i : Nat) : Option St := do
  let pre := expGetById st i
  let st := { st with expenses := st.expenses.filter (fun e => !(e.id == i)) }
  match pre with
  | some e => msUpdateMonthlyExpenses st e.month
  | none => pure st

/-- `expenseService.getRecurringExpenses`: `where isRecurring = true`. -/
def expGetRecurring (st : St) : List Expense :=
  st.expenses.filter (·.isRecurring)

/-- `expenseService.getTotalMonthlyExpenses`. -/
def expGetTotalMonthly (cm : String) (st : St) (m : String) : Int :=
  sumMonth st.expenses (if m == "" then cm else m)

/-- Stand-in for `new Date(year, monthNum - 1, chargeDay).toISOString().split('T')[0]`
(the calendar rendering is opaque to every claim in scope). -/
def recurringDueDate (m : String) (d : Nat) : String :=
  m ++ "-" ++ toString d

/-- Truthiness of `recurring.chargeDay` (absent and `0` are falsy). -/
def chargeTruthy : Option Nat → Bool
  | none => false
  | some d => d != 0

/-- The concrete monthly instance `createRecurringExpensesForMonth` builds
from a recurring template. -/
def instPayload (r : Expense) (m : String) : NewExpense :=
  { name := r.name, amount := r.amount, category := r.category,
    dueDate := recurringDueDate m ((r.chargeDay).getD 0), month := m,
    chargeDay := r.chargeDay, isPaid := false, isRecurring := false }

/-- The `for (const recurring of recurringExpenses)` loop: `existing` is the
snapshot of the month's expenses read once before the loop. -/
def crLoop (cm m : String) (existing : List Expense) : List Expense → St → Option St
  | [], st => some st
  | r :: rs, st =>
    if existing.any (fun x => x.name == r.name && x.category == r.category) then
      crLoop cm m existing rs st
    else if chargeTruthy r.chargeDay then do
      let (_, st) ← expCreate cm st (instPayload r m)
      crLoop cm m existing rs st
    else
      crLoop cm m existing rs st

/-- `expenseService.createRecurringExpensesForMonth`. -/
def expCreateRecurringForMonth (cm : String) (st : St) (m : String) : Option St :=
  crLoop cm m (expGetByMonth cm st m) (expGetRecurring st) st

/-- `name.toLowerCase().replace(/\s+/g, '_')` on the character list; the
flag records whether the previous character was whitespace (a run of
whitespace becomes a single underscore). -/
def slugChars : List Char → Bool → List Char
  | [], _ => []
  | c :: cs, prevWs =>
    if c == ' ' || c == '\t' || c == '\n' || c == '\r' then
      if prevWs then slugChars cs true else '_' :: slugChars cs true
    else
      c.toLower :: slugChars cs false

/-- `name.toLowerCase().replace(/\s+/g, '_')`. -/
def slug (s : String) : String :=
  ⟨slugChars s.data false⟩

/-- `budgetCategoryService.getById`. -/
def catGetById (st : St) (i : String) : Option Category :=
  (st.categories.filter (fun c => c.id == i)).head?

/-- `db.insert(budgetCategories)`: rejected on a duplicate primary key or by
the `budget_categories_name_unique` index. -/
def catInsert (st : St) (c : Category) : Option St :=
  if st.categories.any (fun x => x.id == c.id || x.name == c.name) then none
  else some { st with categories := st.categories ++ [c] }

/-- `budgetCategoryService.create`: deterministic id
`` `${category.name.toLowerCase().replace(/\s+/g, '_')}_${month}` ``,
no clock reading, straight insert, re-read by id. -/
def catCreate (cm : String) (st : St) (p : NewCategory) : Option (Option Category × St) := do
  let m := if p.month == "" then cm else p.month
  let i := slug p.name ++ "_" ++ m
  let st ← catInsert st { id := i, name := p.name, limit := p.limit, spent := p.spent, month := m }
  pure (catGetById st i, st)

/-- `budgetCategoryService.updateSpent`: `set({ spent: amount })` — only the
`spent` column is written, no `updatedAt` refresh. -/
def catUpdateSpent (st : St) (i : String) (amount : Int) : St :=
  { st with categories := st.categories.map (fun c => if c.id == i then { c with spent := amount } else c) }

/-- `groceryItemService.getByListId` restricted to the item rows (the source
additionally attaches each item's price history, which no claim in scope
reads). -/
def itemsByList (st : St) (lid : Nat) : List GItem :=
  st.items.filter (fun i => i.listId == some lid)

/-- `groceryItemService.getById` (again without the price-history join). -/
def itemGetById (st : St) (i : Nat) : Option GItem :=
  (st.items.filter (fun x => x.id == i)).head?

/-- `groceryListService.updateTotalCost`: full recompute
`totalCost = Σ item.totalCost` over the list's current items, written with
`set({ totalCost })` — no `updatedAt` refresh. -/
def listUpdateTotalCost (st : St) (lid : Nat) : St :=
  let tc := ((itemsByList st lid).map (·.totalCost)).sum
  { st with lists := st.lists.map (fun l => if l.id == lid then { l with totalCost := tc } else l) }

/-- `groceryListService.getById` restricted to the list row. -/
def listGetById (st : St) (i : Nat) : Option GList :=
  (st.lists.filter (fun l => l.id == i)).head?

/-- `groceryListService.delete`: `db.delete(groceryLists)`; the schema's
`ON DELETE cascade` foreign keys remove the list's items and, recursively,
their price history. -/
def listDelete (st : St) (lid : Nat) : St :=
  let dead := (st.items.filter (fun i => i.listId == some lid)).map (·.id)
  { st with
    lists := st.lists.filter (fun l => !(l.id == lid)),
    items := st.items.filter (fun i => !(i.listId == some lid)),
    history := st.history.filter (fun h => !((h.itemId.map (dead.contains ·)).getD false)) }

/-- `db.insert(priceHistory)`: rejected on a duplicate primary key or a
dangling `item_id` foreign key. -/
def phInsert (st : St) (h : PHist) : Option St :=
  if st.history.any (fun x => x.id == h.id) then none
  else if (h.itemId.map (fun i => st.items.any (fun x => x.id == i))).getD true then
    some { st with history := st.history ++ [h] }
  else none

/-- `priceHistoryService.create`: id from `Date.now()`, insert, and the
constructed row is returned without a re-read. -/
def phCreate (st : St) (p : NewPHist) : Option (PHist × St) := do
  let (t, st) := tick st
  let h : PHist := { id := t, itemId := p.itemId, price := p.price, date := p.date }
  let st ← phInsert st h
  pure (h, st)

/-- `db.insert(groceryItems)`: rejected on a duplicate primary key or a
dangling `list_id` foreign key. -/
def itemInsert (st : St) (i : GItem) : Option St :=
  if st.items.any (fun x => x.id == i.id) then none
  else if (i.listId.map (fun l => st.lists.any (fun x => x.id == l))).getD true then
    some { st with items := st.items ++ [i] }
  else none

/-- `groceryItemService.create`: id from `Date.now()`, insert, one price
history entry at the initial `pricePerUnit` (its date from `new Date()`),
then the list-total recompute when the item belongs to a list, re-read. -/
def itemCreate (st : St) (p : NewGItem) : Option (Option GItem × St) := do
  let (t, st) := tick st
  let st ← itemInsert st
    { id := t, listId := p.listId, name := p.name, quantity := p.quantity,
      pricePerUnit := p.pricePerUnit, totalCost := p.totalCost,
      isPurchased := p.isPurchased, storeLocation := p.storeLocation }
  let (d, st) := tick st
  let (_, st) ← phCreate st { itemId := some t, price := p.pricePerUnit, date := d }
  let st := match p.listId with
    | some lid => listUpdateTotalCost st lid
    | none => st
  pure (itemGetById st t, st)

/-- The row produced by `groceryItemService.update`'s `set` clause at clock `t`. -/
def applyItemUpd (u : GItemUpdate) (t : Nat) (i : GItem) : GItem :=
  { i with
    listId := u.listId.getD i.listId, name := u.name.getD i.name,
    quantity := u.quantity.getD i.quantity,
    pricePerUnit := u.pricePerUnit.getD i.pricePerUnit,
    totalCost := u.totalCost.getD i.totalCost,
    isPurchased := u.isPurchased.getD i.isPurchased,
    storeLocation := u.storeLocation.getD i.storeLocation,
    updatedAt := .tick t }

/-- `groceryItemService.update`: one `new Date()` for `updatedAt`, the store
update (rejected when it would point a matched row at a missing list), then
the list-total recompute for the *post-mutation* `listId`, and a re-read. -/
def itemUpdate (st : St) (i : Nat) (u : GItemUpdate) : Option (Option GItem × St) := do
  let (t, st) := tick st
  let st ←
    if st.items.any (fun x => x.id == i) then
      match u.listId with
      | some (some lid) =>
        if st.lists.any (fun x => x.id == lid) then
          some { st with items := st.items.map (fun x => if x.id == i then applyItemUpd u t x else x) }
        else none
      | _ => some { st with items := st.items.map (fun x => if x.id == i then applyItemUpd u t x else x) }
    else some st
  let post := itemGetById st i
  let st := match post with
    | some x => match x.listId with
      | some lid => listUpdateTotalCost st lid
      | none => st
    | none => st
  pure (itemGetById st i, st)

/-- `groceryItemService.delete`: reads the row before the store mutation,
deletes it (the cascade removes its price history), then recomputes the
pre-mutation list's total when the item belonged to one. -/
def itemDelete (st : St) (i : Nat) : St :=
  let pre := itemGetById st i
  let st := { st with
    items := st.items.filter (fun x => !(x.id == i)),
    history := st.history.filter (fun h => !(h.itemId == some i)) }
  match pre with
  | some x => match x.listId with
    | some lid => listUpdateTotalCost st lid
    | none => st
  | none => st

/-- `financialSettingsService.get`: `select … limit 1`, `result[0] || null`. -/
def fsGet (st : St) : Option FSettings :=
  st.settings.head?

/-- `db.insert(financialSettings)`: rejected on a duplicate primary key. -/
def fsInsert (st : St) (s : FSettings) : Option St :=
  if st.settings.any (fun x => x.id == s.id) then none
  else some { st with settings := st.settings ++ [s] }

/-- Payload for `financialSettingsService.create` (`currentSavings ?? 0`). -/
structure NewFSettings where
  monthlyIncome : Int
  savingsGoal : Int
  currentSavings : Option Int := none
deriving DecidableEq, Repr

/-- `financialSettingsService.create`: fixed id `"default"`, and the row is
built with `createdAt: null, updatedAt: null`; the constructed object is
returned without a re-read. -/
def fsCreate (st : St) (p : NewFSettings) : Option (FSettings × St) := do
  let s : FSettings :=
    { id := "default", monthlyIncome := p.monthlyIncome, savingsGoal := p.savingsGoal,
      currentSavings := p.currentSavings.getD 0, createdAt := .null, updatedAt := .null }
  let st ← fsInsert st s
  pure (s, st)

/-- `financialSettingsService.getOrCreate`. -/
def fsGetOrCreate (st : St) : Option (FSettings × St) :=
  match fsGet st with
  | some s => some (s, st)
  | none => fsCreate st { monthlyIncome := 0, savingsGoal := 0, currentSavings := some 0 }

end Native

namespace Web

/-- `webDb.put`: IndexedDB insert-or-replace on the `id` key path. -/
def putBy (key : α → String) (l : List α) (a : α) : List α :=
  if l.any (fun x => key x == key a) then
    l.map (fun x => if key x == key a then a else x)
  else l ++ [a]

/-- `webDb.get`: `request.result || null` for the unique record with the key. -/
def getBy (key : α → String) (l : List α) (i : String) : Option α :=
  (l.filter (fun x => key x == i)).head?

/-- `webDb.delete`: removes the record with the key, a no-op when absent. -/
def delBy (key : α → String) (l : List α) (i : String) : List α :=
  l.filter (fun x => !(key x == i))

/-- Expense record as `webExpenseService.create` stores it: note there is no
`month` (nor `chargeDay`) member — the create drops them from the payload. -/
structure WExpense where
  id : String
  name : String
  amount : Int
  category : String
  dueDate : String
  isPaid : Bool := false
  isRecurring : Bool := false
  createdAt : TS := .null
  updatedAt : TS := .null
deriving DecidableEq, Repr

/-- The fields of `Partial<NewExpense>` that `webExpenseService.update` can
merge into the stored record shape. -/
structure WExpenseUpdate where
  name : Option String := none
  amount : Option Int := none
  category : Option String := none
  dueDate : Option String := none
  isPaid : Option Bool := none
  isRecurring : Option Bool := none
deriving DecidableEq, Repr

/-- Budget category record as stored by `webBudgetCategoryService.create`
(the payload spread keeps `month`, but the id does not use it). -/
structure WCategory where
  id : String
  name : String
  limit : Int
  spent : Int := 0
  month : String
  createdAt : TS := .null
  updatedAt : TS := .null
deriving DecidableEq, Repr

/-- `Partial<NewBudgetCategory>` for `webBudgetCategoryService.update`. -/
structure WCategoryUpdate where
  name : Option String := none
  limit : Option Int := none
  spent : Option Int := none
  month : Option String := none
deriving DecidableEq, Repr

/-- Grocery list record of the `groceryLists` object store. -/
structure WList where
  id : String
  name : String
  totalCost : Int := 0
  createdAt : TS := .null
  updatedAt : TS := .null
deriving DecidableEq, Repr

/-- `Partial<NewGroceryList>` for `webGroceryListService.update`. -/
structure WListUpdate where
  name : Option String := none
  totalCost : Option Int := none
deriving DecidableEq, Repr

/-- Grocery item record of the `groceryItems` object store. -/
structure WItem where
  id : String
  listId : Option String := none
  name : String
  quantity : Nat
  pricePerUnit : Int
  totalCost : Int
  isPurchased : Bool := false
  storeLocation : Option String := none
  createdAt : TS := .null
  updatedAt : TS := .null
deriving DecidableEq, Repr

/-- Price history record of the `priceHistory` object store (`date` keeps
the tick of the `new Date()` that produced the date string). -/
structure WHist where
  id : String
  itemId : Option String := none
  price : Int
  date : Nat
  createdAt : TS := .null
deriving DecidableEq, Repr

/-- Financial settings record of the `financialSettings` object store. -/
structure WSettings where
  id : String
  monthlyIncome : Int
  savingsGoal : Int
  currentSavings : Int := 0
  createdAt : TS := .null
  updatedAt : TS := .null
deriving DecidableEq, Repr

/-- `Partial<NewFinancialSettings>` for `webFinancialSettingsService.update`. -/
structure WSettingsUpdate where
  monthlyIncome : Option Int := none
  savingsGoal : Option Int := none
  currentSavings : Option Int := none
deriving DecidableEq, Repr

/-- The six IndexedDB object stores plus the wall clock. -/
structure St where
  expenses : List WExpense := []
  categories : List WCategory := []
  lists : List WList := []
  items : List WItem := []
  history : List WHist := []
  settings : List WSettings := []
  clock : Nat := 0
deriving DecidableEq, Repr

/-- One `Date.now()` / `new Date()` reading. -/
def tick (st : St) : Nat × St := (st.clock, { st with clock := st.clock + 1 })

/-- `webExpenseService.getById`. -/
def expGetById (st : St) (i : String) : Option WExpense :=
  getBy (·.id) st.expenses i

/-- `webExpenseService.create`: id from `Date.now()`, `now` from
`new Date()`, and the stored record is built from the payload *without* its
`month` and `chargeDay` fields. -/
def expCreate (st : St) (p : Native.NewExpense) : WExpense × St :=
  let (t, st) := tick st
  let (n, st) := tick st
  let e : WExpense :=
    { id := toString t, name := p.name, amount := p.amount, category := p.category,
      dueDate := p.dueDate, isPaid := p.isPaid, isRecurring := p.isRecurring,
      createdAt := .tick n, updatedAt := .tick n }
  (e, { st with expenses := putBy (·.id) st.expenses e })

/-- `webExpenseService.update`: `null` when the id is absent (no write),
otherwise the merged record with a fresh `updatedAt` is put back. -/
def expUpdate (st : St) (i : String) (u : WExpenseUpdate) : Option WExpense × St :=
  match expGetById st i with
  | none => (none, st)
  | some e =>
    let (n, st) := tick st
    let e2 : WExpense :=
      { e with
        name := u.name.getD e.name, amount := u.amount.getD e.amount,
        category := u.category.getD e.category, dueDate := u.dueDate.getD e.dueDate,
        isPaid := u.isPaid.getD e.isPaid, isRecurring := u.isRecurring.getD e.isRecurring,
        updatedAt := .tick n }
    (some e2, { st with expenses := putBy (·.id) st.expenses e2 })

/-- `webExpenseService.delete`. -/
def expDelete (st : St) (i : String) : St :=
  { st with expenses := delBy (·.id) st.expenses i }

/-- `webExpenseService.getRecurringExpenses`. -/
def expGetRecurring (st : St) : List WExpense :=
  st.expenses.filter (·.isRecurring)

/-- `webExpenseService.getTotalMonthlyExpenses`: takes no month and returns
the sum of the amounts of the *recurring* expenses. -/
def expGetTotalMonthly (st : St) : Int :=
  ((expGetRecurring st).map (·.amount)).sum

/-- `webBudgetCategoryService.getById`. -/
def catGetById (st : St) (i : String) : Option WCategory :=
  getBy (·.id) st.categories i

/-- `webBudgetCategoryService.create`: id
`category.name.toLowerCase().replace(/\s+/g, '_')` — no month suffix — and
`put` (insert-or-replace). -/
def catCreate (st : St) (p : Native.NewCategory) : WCategory × St :=
  let i := Native.slug p.name
  let (n, st) := tick st
  let c : WCategory :=
    { id := i, name := p.name, limit := p.limit, spent := p.spent, month := p.month,
      createdAt := .tick n, updatedAt := .tick n }
  (c, { st with categories := putBy (·.id) st.categories c })

/-- `webBudgetCategoryService.update`. -/
def catUpdate (st : St) (i : String) (u : WCategoryUpdate) : Option WCategory × St :=
  match catGetById st i with
  | none => (none, st)
  | some c =>
    let (n, st) := tick st
    let c2 : WCategory :=
      { c with
        name := u.name.getD c.name, limit := u.limit.getD c.limit,
        spent := u.spent.getD c.spent, month := u.month.getD c.month,
        updatedAt := .tick n }
    (some c2, { st with categories := putBy (·.id) st.categories c2 })

/-- `webBudgetCategoryService.updateSpent`: delegates to `update`. -/
def catUpdateSpent (st : St) (i : String) (amount : Int) : Option WCategory × St :=
  catUpdate st i { spent := some amount }

/-- `webGroceryItemService.getByListId` restricted to the item rows. -/
def itemsByList (st : St) (lid : String) : List WItem :=
  st.items.filter (fun i => i.listId == some lid)

/-- `webGroceryListService.update`. -/
def listUpdate (st : St) (i : String) (u : WListUpdate) : Option WList × St :=
  match getBy (·.id) st.lists i with
  | none => (none, st)
  | some l =>
    let (n, st) := tick st
    let l2 : WList :=
      { l with
        name := u.name.getD l.name, totalCost := u.totalCost.getD l.totalCost,
        updatedAt := .tick n }
    (some l2, { st with lists := putBy (·.id) st.lists l2 })

/-- `webGroceryListService.updateTotalCost`: full recompute over the list's
current items, written through `update` (which refreshes `updatedAt`). -/
def listUpdateTotalCost (st : St) (lid : String) : St :=
  let tc := ((itemsByList st lid).map (·.totalCost)).sum
  (listUpdate st lid { totalCost := some tc }).2

/-- `webGroceryListService.delete`: a bare `webDb.delete` of the list record;
no cascade over the list's items is performed. -/
def listDelete (st : St) (i : String) : St :=
  { st with lists := delBy (·.id) st.lists i }

/-- `webGroceryItemService.delete`: reads the item, deletes it, recomputes
its list's total; the item's price history records are left in the store. -/
def itemDelete (st : St) (i : String) : St :=
  let pre := getBy (·.id) st.items i
  let st := { st with items := delBy (·.id) st.items i }
  match pre with
  | some x => match x.listId with
    | some lid => listUpdateTotalCost st lid
    | none => st
  | none => st

/-- `webFinancialSettingsService.get`: the record with id `"default"`. -/
def fsGet (st : St) : Option WSettings :=
  getBy (·.id) st.settings "default"

/-- `webFinancialSettingsService.create`: id `"default"`, timestamps from
`new Date()`, `currentSavings ?? 0`, stored with `put`. -/
def fsCreate (st : St) (p : Native.NewFSettings) : WSettings × St :=
  let (n, st) := tick st
  let s : WSettings :=
    { id := "default", monthlyIncome := p.monthlyIncome, savingsGoal := p.savingsGoal,
      currentSavings := p.currentSavings.getD 0, createdAt := .tick n, updatedAt := .tick n }
  (s, { st with settings := putBy (·.id) st.settings s })

/-- `webFinancialSettingsService.update`: when no record exists it *creates*
the default record from the update payload (`?? 0` per field); otherwise it
merges and puts back with a fresh `updatedAt`. -/
def fsUpdate (st : St) (u : WSettingsUpdate) : WSettings × St :=
  match fsGet st with
  | none =>
    fsCreate st
      { monthlyIncome := u.monthlyIncome.getD 0, savingsGoal := u.savingsGoal.getD 0,
        currentSavings := some (u.currentSavings.getD 0) }
  | some s =>
    let (n, st) := tick st
    let s2 : WSettings :=
      { s with
        monthlyIncome := u.monthlyIncome.getD s.monthlyIncome,
        savingsGoal := u.savingsGoal.getD s.savingsGoal,
        currentSavings := u.currentSavings.getD s.currentSavings,
        updatedAt := .tick n }
    (s2, { st with settings := putBy (·.id) st.settings s2 })

/-- `webFinancialSettingsService.getOrCreate`. -/
def fsGetOrCreate (st : St) : WSettings × St :=
  match fsGet st with
  | some s => (s, st)
  | none => fsCreate st { monthlyIncome := 0, savingsGoal := 0, currentSavings := some 0 }

end Web

namespace Native

/-- One `expenseService` mutation, as quantified over by P4. -/
inductive EOp
  | create (p : NewExpense)
  | update (i : Nat) (u : ExpenseUpdate)
  | delete (i : Nat)
deriving DecidableEq, Repr

/-- Run one expense mutation (`none` = a storage error was thrown). -/
def runEOp (cm : String) (st : St) : EOp → Option St
  | .create p => (expCreate cm st p).map (·.2)
  | .update i u => (expUpdate st i u).map (·.2)
  | .delete i => expDelete st i

/-- Run a sequence of expense mutations. -/
def runEOps (cm : String) (ops : List EOp) (st : St) : Option St :=
  ops.foldlM (runEOp cm) st

/-- An update payload that does not set the `month` field. -/
def EOp.monthFree : EOp → Prop
  | .update _ u => u.month = none
  | _ => True

/-- P4: every stored `monthly_savings` row agrees with a full recompute over
the current `expenses` table. -/
def savingsConsistent (st : St) : Prop :=
  ∀ r ∈ st.savings,
    r.totalExpenses = sumMonth st.expenses r.month ∧
    r.totalSaved = max 0 (r.income - r.totalExpenses)

/-- Every month holding an expense has a `monthly_savings` row. -/
def monthCovered (st : St) : Prop :=
  ∀ e ∈ st.expenses, ∃ r ∈ st.savings, r.month = e.month

/-- Inductive invariant for the expense/savings subsystem. -/
def ExpInv (st : St) : Prop :=
  (st.expenses.map (·.id)).Nodup ∧ (st.savings.map (·.month)).Nodup ∧
  savingsConsistent st ∧ monthCovered st

/-- One `groceryItemService` mutation, as quantified over by P3. -/
inductive GOp
  | create (p : NewGItem)
  | update (i : Nat) (u : GItemUpdate)
  | delete (i : Nat)
deriving DecidableEq, Repr

/-- Run one grocery-item mutation. -/
def runGOp (st : St) : GOp → Option St
  | .create p => (itemCreate st p).map (·.2)
  | .update i u => (itemUpdate st i u).map (·.2)
  | .delete i => some (itemDelete st i)

/-- Run a sequence of grocery-item mutations. -/
def runGOps (ops : List GOp) (st : St) : Option St :=
  ops.foldlM runGOp st

/-- An update payload that does not set the `listId` field. -/
def GOp.listFree : GOp → Prop
  | .update _ u => u.listId = none
  | _ => True

/-- P3: every stored grocery list agrees with a full recompute over its
current items. -/
def groceryConsistent (st : St) : Prop :=
  ∀ l ∈ st.lists, l.totalCost = ((itemsByList st l.id).map (·.totalCost)).sum

/-- Inductive invariant for the item/list subsystem. -/
def GroInv (st : St) : Prop :=
  (st.items.map (·.id)).Nodup ∧ groceryConsistent st

end Native

/-! ## Shared helper lemmas -/

/-- Mapping a function that fixes every element of a list is the identity. -/
theorem list_map_eq_self {α : Type} (l : List α) (f : α → α) (h : ∀ a ∈ l, f a = a) :
    l.map f = l := by
  induction l with
  | nil => rfl
  | cons a t ih =>
    simp only [List.map_cons, h a (List.mem_cons_self a t)]
    exact congrArg _ (ih fun b hb => h b (List.mem_cons_of_mem a hb))

/-! ## C9 — absence is never an error -/

/-- C9: for an id not present in the store, `get` returns `null`, `update`
returns `null` and writes nothing (only the wall clock advanced for the
unused `updatedAt`), and `delete` completes as a silent no-op, on both the
relational (`expenseService`) and the document-store (`webExpenseService`)
backends. -/
theorem c9_absent_id_is_null_result
    (st : Native.St) (i : Nat) (h : ∀ e ∈ st.expenses, e.id ≠ i)
    (wst : Web.St) (s : String) (hw : ∀ e ∈ wst.expenses, e.id ≠ s) :
    Native.expGetById st i = none ∧
    (∀ u, Native.expUpdate st i u = some (none, { st with clock := st.clock + 1 })) ∧
    Native.expDelete st i = some st ∧
    Web.expGetById wst s = none ∧
    (∀ u, Web.expUpdate wst s u = (none, wst)) ∧
    Web.expDelete wst s = wst := by
  have hfilter : st.expenses.filter (fun e => e.id == i) = [] :=
    List.filter_eq_nil_iff.mpr (by intro a ha; simpa using h a ha)
  have hget : Native.expGetById st i = none := by
    simp [Native.expGetById, hfilter]
  have hwfilter : wst.expenses.filter (fun e => e.id == s) = [] :=
    List.filter_eq_nil_iff.mpr (by intro a ha; simpa using hw a ha)
  have hwget : Web.expGetById wst s = none := by
    simp [Web.expGetById, Web.getBy, hwfilter]
  refine ⟨hget, ?_, ?_, hwget, ?_, ?_⟩
  · intro u
    simp [Native.expUpdate, Native.tick, Native.expGetById, hfilter]
    constructor
    · intro x hx
      rw [if_neg (h x hx)]
      exact h x hx
    · exact list_map_eq_self _ _ fun a ha => if_neg (h a ha)
  · have hkeep : st.expenses.filter (fun e => !(e.id == i)) = st.expenses :=
      List.filter_eq_self.mpr (by intro a ha; simpa using h a ha)
    simp [Native.expDelete, Native.expGetById, hfilter, hkeep]
  · intro u
    simp [Web.expUpdate, hwget]
  · have hwkeep : wst.expenses.filter (fun e => !(e.id == s)) = wst.expenses :=
      List.filter_eq_self.mpr (by intro a ha; simpa using hw a ha)
    simp [Web.expDelete, Web.delBy, hwkeep]

/-- Witness for C9 at a store holding one expense with id 1 (resp. "1"),
queried at the absent id 0 (resp. "0"). -/
theorem c9_absent_id_is_null_result_witness :
    Native.expGetById
      { expenses := [{ id := 1, name := "Rent", amount := 1200, category := "H",
                       dueDate := "d", month := "2025-01" }], clock := 2 } 0 = none ∧
    Web.expDelete
      { expenses := [{ id := "1", name := "Rent", amount := 1200, category := "H",
                       dueDate := "d" }], clock := 2 } "0" =
      { expenses := [{ id := "1", name := "Rent", amount := 1200, category := "H",
                       dueDate := "d" }], clock := 2 } := by
  have h := c9_absent_id_is_null_result
    { expenses := [{ id := 1, name := "Rent", amount := 1200, category := "H",
                     dueDate := "d", month := "2025-01" }], clock := 2 } 0
    (by decide)
    { expenses := [{ id := "1", name := "Rent", amount := 1200, category := "H",
                     dueDate := "d" }], clock := 2 } "0"
    (by decide)
  exact ⟨h.1, h.2.2.2.2.2⟩

/-! ## C7 — lazy default creation of the financial settings singleton -/

/-- C7: with no settings row stored, `getOrCreate` creates and returns the
`"default"` row with all money fields `0`, and a second call returns that
same row without creating a duplicate — on both backends. -/
theorem c7_getOrCreate_default_idempotent
    (st : Native.St) (h : st.settings = [])
    (wst : Web.St) (hw : Web.fsGet wst = none) :
    (∃ s st', Native.fsGetOrCreate st = some (s, st') ∧
      s.id = "default" ∧ s.monthlyIncome = 0 ∧ s.savingsGoal = 0 ∧ s.currentSavings = 0 ∧
      st'.settings = [s] ∧ Native.fsGetOrCreate st' = some (s, st')) ∧
    (∃ w wst', Web.fsGetOrCreate wst = (w, wst') ∧
      w.id = "default" ∧ w.monthlyIncome = 0 ∧ w.savingsGoal = 0 ∧ w.currentSavings = 0 ∧
      wst'.settings = wst.settings ++ [w] ∧ Web.fsGetOrCreate wst' = (w, wst')) := by
  have hnone : ∀ x ∈ wst.settings, ¬(x.id == "default") := by
    intro x hx
    simp only [Web.fsGet, Web.getBy] at hw
    intro hid
    have hmem : x ∈ wst.settings.filter (fun y => y.id == "default") :=
      List.mem_filter.mpr ⟨hx, hid⟩
    rw [List.head?_eq_none_iff.mp hw] at hmem
    simp at hmem
  constructor
  · refine ⟨{ id := "default", monthlyIncome := 0, savingsGoal := 0, currentSavings := 0, createdAt := .null, updatedAt := .null }, { st with settings := [{ id := "default", monthlyIncome := 0, savingsGoal := 0, currentSavings := 0, createdAt := .null, updatedAt := .null }] }, ?_, rfl, rfl, rfl, rfl, rfl, ?_⟩
    · simp [Native.fsGetOrCreate, Native.fsGet, Native.fsCreate, Native.fsInsert, h]
    · simp [Native.fsGetOrCreate, Native.fsGet]
  · have hput : ∀ (a : Web.WSettings), a.id = "default" →
        Web.putBy (fun x => x.id) wst.settings a = wst.settings ++ [a] := by
      intro a ha
      have hcond : (wst.settings.any (fun x => x.id == a.id)) = false := by
        apply List.any_eq_false.mpr
        intro x hx
        rw [ha]
        exact hnone x hx
      simp [Web.putBy, hcond]
    refine ⟨{ id := "default", monthlyIncome := 0, savingsGoal := 0, currentSavings := 0, createdAt := .tick wst.clock, updatedAt := .tick wst.clock }, { wst with settings := wst.settings ++ [{ id := "default", monthlyIncome := 0, savingsGoal := 0, currentSavings := 0, createdAt := .tick wst.clock, updatedAt := .tick wst.clock }], clock := wst.clock + 1 }, ?_, rfl, rfl, rfl, rfl, rfl, ?_⟩
    · simp [Web.fsGetOrCreate, hw, Web.fsCreate, Web.tick]
      exact hput _ rfl
    · have hget2 : Web.getBy (fun (x : Web.WSettings) => x.id) (wst.settings ++ [{ id := "default", monthlyIncome := 0, savingsGoal := 0, currentSavings := 0, createdAt := .tick wst.clock, updatedAt := .tick wst.clock }]) "default" = some { id := "default", monthlyIncome := 0, savingsGoal := 0, currentSavings := 0, createdAt := .tick wst.clock, updatedAt := .tick wst.clock } := by
        unfold Web.getBy
        rw [List.filter_append, List.filter_eq_nil_iff.mpr hnone]
        simp
      simp [Web.fsGetOrCreate, Web.fsGet, hget2]

/-- Witness for C7: both backends start with empty stores. -/
theorem c7_getOrCreate_default_idempotent_witness :
    (∃ s st', Native.fsGetOrCreate {} = some (s, st') ∧
      s.id = "default" ∧ s.monthlyIncome = 0 ∧ s.savingsGoal = 0 ∧ s.currentSavings = 0 ∧
      st'.settings = [s] ∧ Native.fsGetOrCreate st' = some (s, st')) ∧
    (∃ w wst', Web.fsGetOrCreate {} = (w, wst') ∧
      w.id = "default" ∧ w.monthlyIncome = 0 ∧ w.savingsGoal = 0 ∧ w.currentSavings = 0 ∧
      wst'.settings = ({} : Web.St).settings ++ [w] ∧ Web.fsGetOrCreate wst' = (w, wst')) :=
  c7_getOrCreate_default_idempotent {} rfl {} rfl

/-! ## C10 — web settings update upserts the default row -/

/-- C10: on the document-store backend, `update` with no stored settings
record does not return an absent result: it creates and returns the
`"default"` record, taking each field from the update payload when present
and `0` otherwise, and stores it. -/
theorem c10_web_settings_update_upserts
    (wst : Web.St) (h : Web.fsGet wst = none) (u : Web.WSettingsUpdate) :
    ∃ s wst', Web.fsUpdate wst u = (s, wst') ∧
      s.id = "default" ∧
      s.monthlyIncome = u.monthlyIncome.getD 0 ∧
      s.savingsGoal = u.savingsGoal.getD 0 ∧
      s.currentSavings = u.currentSavings.getD 0 ∧
      Web.fsGet wst' = some s := by
  have hnone : ∀ x ∈ wst.settings, ¬(x.id == "default") := by
    intro x hx
    simp only [Web.fsGet, Web.getBy] at h
    intro hid
    have hmem : x ∈ wst.settings.filter (fun y => y.id == "default") :=
      List.mem_filter.mpr ⟨hx, hid⟩
    rw [List.head?_eq_none_iff.mp h] at hmem
    simp at hmem
  have hput : ∀ (a : Web.WSettings), a.id = "default" →
      Web.putBy (fun x => x.id) wst.settings a = wst.settings ++ [a] := by
    intro a ha
    have hcond : (wst.settings.any (fun x => x.id == a.id)) = false := by
      apply List.any_eq_false.mpr
      intro x hx
      rw [ha]
      exact hnone x hx
    simp [Web.putBy, hcond]
  refine ⟨{ id := "default", monthlyIncome := u.monthlyIncome.getD 0, savingsGoal := u.savingsGoal.getD 0, currentSavings := u.currentSavings.getD 0, createdAt := .tick wst.clock, updatedAt := .tick wst.clock }, { wst with settings := wst.settings ++ [{ id := "default", monthlyIncome := u.monthlyIncome.getD 0, savingsGoal := u.savingsGoal.getD 0, currentSavings := u.currentSavings.getD 0, createdAt := .tick wst.clock, updatedAt := .tick wst.clock }], clock := wst.clock + 1 }, ?_, rfl, rfl, rfl, rfl, ?_⟩
  · simp [Web.fsUpdate, h, Web.fsCreate, Web.tick]
    exact hput _ rfl
  · have hget2 : Web.getBy (fun (x : Web.WSettings) => x.id) (wst.settings ++ [{ id := "default", monthlyIncome := u.monthlyIncome.getD 0, savingsGoal := u.savingsGoal.getD 0, currentSavings := u.currentSavings.getD 0, createdAt := .tick wst.clock, updatedAt := .tick wst.clock }]) "default" = some { id := "default", monthlyIncome := u.monthlyIncome.getD 0, savingsGoal := u.savingsGoal.getD 0, currentSavings := u.currentSavings.getD 0, createdAt := .tick wst.clock, updatedAt := .tick wst.clock } := by
      unfold Web.getBy
      rw [List.filter_append, List.filter_eq_nil_iff.mpr hnone]
      simp
    simp [Web.fsGet, hget2]

/-- Witness for C10: empty web store, update payload setting only the income. -/
theorem c10_web_settings_update_upserts_witness :
    ∃ s wst', Web.fsUpdate {} { monthlyIncome := some 4500 } = (s, wst') ∧
      s.id = "default" ∧
      s.monthlyIncome = Option.getD (some (4500 : Int)) 0 ∧
      s.savingsGoal = Option.getD (none : Option Int) 0 ∧
      s.currentSavings = Option.getD (none : Option Int) 0 ∧
      Web.fsGet wst' = some s :=
  c10_web_settings_update_upserts {} rfl { monthlyIncome := some 4500 }

/-! ## C3 — cascade delete of dependents -/

/-- Web store with one list `"1"`, one item `"2"` in it, and one price
history row `"3"` for the item. -/
def c3WebStore : Web.St :=
  { lists := [{ id := "1", name := "Weekly", totalCost := 8 }],
    items := [{ id := "2", listId := some "1", name := "Milk", quantity := 2, pricePerUnit := 4, totalCost := 8 }],
    history := [{ id := "3", itemId := some "2", price := 4, date := 0 }],
    clock := 9 }

/-- The same store on the relational backend (ids 1, 2, 3). -/
def c3NatStore : Native.St :=
  { lists := [{ id := 1, name := "Weekly", totalCost := 8 }],
    items := [{ id := 2, listId := some 1, name := "Milk", quantity := 2, pricePerUnit := 4, totalCost := 8 }],
    history := [{ id := 3, itemId := some 2, price := 4, date := 0 }],
    clock := 9 }

/-- C3 fails on the document-store backend: `webGroceryListService.delete`
removes only the list record and leaves its item in the store, and
`webGroceryItemService.delete` leaves the item's price history in the
store; the relational backend (whose schema declares `ON DELETE cascade`)
does remove the dependents at the same input. -/
theorem c3_web_delete_leaves_orphans :
    (Web.listDelete c3WebStore "1").lists = [] ∧
    (Web.listDelete c3WebStore "1").items = c3WebStore.items ∧
    (Web.itemDelete c3WebStore "2").items = [] ∧
    (Web.itemDelete c3WebStore "2").history = c3WebStore.history ∧
    (Native.listDelete c3NatStore 1).items = [] ∧
    (Native.listDelete c3NatStore 1).history = [] ∧
    (Native.itemDelete c3NatStore 2).history = [] := by
  decide

/-! ## C4 — behavioral equivalence of the two backends -/

/-- A plain (non-recurring) expense for January 2025. -/
def c4Payload : Native.NewExpense :=
  { name := "Rent", amount := 50, category := "Housing", dueDate := "2025-01-01", month := "2025-01" }

/-- C4 fails: after the same single `create` on empty stores, the relational
`getTotalMonthlyExpenses("2025-01")` returns the expense's amount, while the
document-store `getTotalMonthlyExpenses` (which ignores months and sums
recurring templates only) returns `0`. -/
theorem c4_backends_diverge_on_monthly_total :
    (Native.expCreate "2025-09" {} c4Payload).map
      (fun r => Native.expGetTotalMonthly "2025-09" r.2 "2025-01") = some 50 ∧
    Web.expGetTotalMonthly (Web.expCreate {} c4Payload).2 = 0 ∧
    (50 : Int) ≠ 0 := by
  decide

/-! ## C6 — deterministic budget category id -/

/-- The payload of P6: `{ name: "Housing", month: "2025-03" }`. -/
def c6Payload : Native.NewCategory :=
  { name := "Housing", limit := 1500, month := "2025-03" }

/-- C6 fails as stated: the document-store backend assigns the id
`"housing"` (the month suffix is missing), and on the relational backend the
second identical `create` is not safe — the insert hits the primary-key /
unique-name constraints and throws instead of no-op-ing or updating. -/
theorem c6_counterexample_id_and_double_create :
    (Web.catCreate {} c6Payload).1.id = "housing" ∧
    ("housing" : String) ≠ "housing_2025-03" ∧
    (Native.catCreate "2025-09" {} c6Payload).isSome ∧
    ((Native.catCreate "2025-09" {} c6Payload).bind
      (fun r => Native.catCreate "2025-09" r.2 c6Payload)) = none := by
  decide

/-- C6 amended: the relational `create` assigns the deterministic id
`slug(name) ++ "_" ++ month`, but a second identical `create` throws a
constraint violation; the document-store `create` assigns `slug(name)` with
no month suffix, and a second identical `create` overwrites in place, so the
store never holds a duplicate. -/
theorem c6_amended_deterministic_id
    (cm name month : String) (lim sp : Int) (hm : month ≠ "")
    (st : Native.St)
    (hcat : ∀ c ∈ st.categories, c.id ≠ Native.slug name ++ "_" ++ month ∧ c.name ≠ name)
    (wst : Web.St) (hwcat : ∀ c ∈ wst.categories, c.id ≠ Native.slug name) :
    (∃ c st', Native.catCreate cm st { name := name, limit := lim, spent := sp, month := month } = some (some c, st') ∧
      c.id = Native.slug name ++ "_" ++ month ∧
      Native.catCreate cm st' { name := name, limit := lim, spent := sp, month := month } = none) ∧
    (∃ c wst', Web.catCreate wst { name := name, limit := lim, spent := sp, month := month } = (c, wst') ∧
      c.id = Native.slug name ∧
      wst'.categories = wst.categories ++ [c] ∧
      (∃ c2 wst2, Web.catCreate wst' { name := name, limit := lim, spent := sp, month := month } = (c2, wst2) ∧
        wst2.categories = wst.categories ++ [c2])) := by
  have hmm : (month == "") = false := by
    simp [hm]
  constructor
  · have hguard : (st.categories.any
        (fun x => x.id == Native.slug name ++ "_" ++ month || x.name == name)) = false := by
      apply List.any_eq_false.mpr
      intro x hx
      simp [(hcat x hx).1, (hcat x hx).2]
    have hfilter : st.categories.filter
        (fun c => c.id == Native.slug name ++ "_" ++ month) = [] := by
      apply List.filter_eq_nil_iff.mpr
      intro x hx
      simp [(hcat x hx).1]
    refine ⟨{ id := Native.slug name ++ "_" ++ month, name := name, limit := lim, spent := sp, month := month }, { st with categories := st.categories ++ [{ id := Native.slug name ++ "_" ++ month, name := name, limit := lim, spent := sp, month := month }] }, ?_, rfl, ?_⟩
    · simp [Native.catCreate, Native.catInsert, hmm, hguard, Native.catGetById,
        List.filter_append, hfilter]
      exact Or.inr fun x hx => (hcat x hx).1
    · simp [Native.catCreate, Native.catInsert, hmm]
  · have hwguard : (wst.categories.any (fun x => x.id == Native.slug name)) = false := by
      apply List.any_eq_false.mpr
      intro x hx
      simp [hwcat x hx]
    refine ⟨{ id := Native.slug name, name := name, limit := lim, spent := sp, month := month, createdAt := .tick wst.clock, updatedAt := .tick wst.clock }, { wst with categories := wst.categories ++ [{ id := Native.slug name, name := name, limit := lim, spent := sp, month := month, createdAt := .tick wst.clock, updatedAt := .tick wst.clock }], clock := wst.clock + 1 }, ?_, rfl, rfl, ?_⟩
    · simp [Web.catCreate, Web.tick, Web.putBy, hwguard]
    · refine ⟨{ id := Native.slug name, name := name, limit := lim, spent := sp, month := month, createdAt := .tick (wst.clock + 1), updatedAt := .tick (wst.clock + 1) }, { wst with categories := wst.categories ++ [{ id := Native.slug name, name := name, limit := lim, spent := sp, month := month, createdAt := .tick (wst.clock + 1), updatedAt := .tick (wst.clock + 1) }], clock := wst.clock + 2 }, ?_, rfl⟩
      simp [Web.catCreate, Web.tick, Web.putBy, List.any_append, hwguard,
        List.map_append]
      apply list_map_eq_self
      intro a ha
      exact if_neg (hwcat a ha)

/-- Witness for C6 amended, at the P6 payload on empty stores. -/
theorem c6_amended_deterministic_id_witness :
    (∃ c st', Native.catCreate "2025-09" {} { name := "Housing", limit := 1500, spent := 0, month := "2025-03" } = some (some c, st') ∧
      c.id = Native.slug "Housing" ++ "_" ++ "2025-03" ∧
      Native.catCreate "2025-09" st' { name := "Housing", limit := 1500, spent := 0, month := "2025-03" } = none) ∧
    (∃ c wst', Web.catCreate {} { name := "Housing", limit := 1500, spent := 0, month := "2025-03" } = (c, wst') ∧
      c.id = Native.slug "Housing" ∧
      wst'.categories = ({} : Web.St).categories ++ [c] ∧
      (∃ c2 wst2, Web.catCreate wst' { name := "Housing", limit := 1500, spent := 0, month := "2025-03" } = (c2, wst2) ∧
        wst2.categories = ({} : Web.St).categories ++ [c2])) :=
  c6_amended_deterministic_id "2025-09" "Housing" "2025-03" 1500 0 (by decide) {}
    (by intro c hc; simp at hc) {} (by intro c hc; simp at hc)

/-! ## C8 — timestamp policy -/

/-- Store with one budget category and one grocery list, both last touched
well before the current clock value `10`. -/
def c8Store : Native.St :=
  { categories := [{ id := "c", name := "C", limit := 100, spent := 0, month := "2025-01", createdAt := .tick 2, updatedAt := .tick 5 }],
    lists := [{ id := 7, name := "L", totalCost := 3, createdAt := .tick 3, updatedAt := .tick 6 }],
    clock := 10 }

/-- C8 fails on the relational backend: `updateSpent` writes `spent` and
`updateTotalCost` writes `totalCost` while both leave `updatedAt` at its old
value instead of refreshing it. -/
theorem c8_counterexample_stale_updatedAt :
    (Native.catUpdateSpent c8Store "c" 7).categories =
      [{ id := "c", name := "C", limit := 100, spent := 7, month := "2025-01", createdAt := .tick 2, updatedAt := .tick 5 }] ∧
    (Native.listUpdateTotalCost c8Store 7).lists =
      [{ id := 7, name := "L", totalCost := 0, createdAt := .tick 3, updatedAt := .tick 6 }] := by
  decide

/-- C8 amended: on the document-store backend creation stamps both
timestamps and `updateSpent` (via `update`) refreshes `updatedAt` while
preserving `createdAt`; on the relational backend `updateSpent` and
`updateTotalCost` write only their data column and touch neither timestamp,
and `financialSettingsService.create` stores explicit `null` timestamps. -/
theorem c8_amended_timestamps :
    (∀ (st : Native.St) (i : String) (amt : Int),
      (Native.catUpdateSpent st i amt).categories.map (fun c => (c.createdAt, c.updatedAt)) =
        st.categories.map (fun c => (c.createdAt, c.updatedAt))) ∧
    (∀ (st : Native.St) (lid : Nat),
      (Native.listUpdateTotalCost st lid).lists.map (fun l => (l.createdAt, l.updatedAt)) =
        st.lists.map (fun l => (l.createdAt, l.updatedAt))) ∧
    (∀ (st : Web.St) (p : Native.NewCategory),
      (Web.catCreate st p).1.createdAt = TS.tick st.clock ∧
      (Web.catCreate st p).1.updatedAt = TS.tick st.clock) ∧
    (∀ (st : Web.St) (i : String) (amt : Int) (c2 : Web.WCategory) (st2 : Web.St),
      Web.catUpdateSpent st i amt = (some c2, st2) →
        c2.spent = amt ∧ c2.updatedAt = TS.tick st.clock ∧
        ∃ c ∈ st.categories, c.id = i ∧ c2.createdAt = c.createdAt) ∧
    (∀ (st : Native.St) (p : Native.NewFSettings) (s : Native.FSettings) (st' : Native.St),
      Native.fsCreate st p = some (s, st') → s.createdAt = TS.null ∧ s.updatedAt = TS.null) := by
  refine ⟨?_, ?_, ?_, ?_, ?_⟩
  · intro st i amt
    simp only [Native.catUpdateSpent, List.map_map]
    apply List.map_congr_left
    intro a _
    by_cases hid : a.id = i
    · simp [hid]
    · simp [hid]
  · intro st lid
    simp only [Native.listUpdateTotalCost, List.map_map]
    apply List.map_congr_left
    intro a _
    by_cases hid : a.id = lid
    · simp [hid]
    · simp [hid]
  · intro st p
    constructor <;> simp [Web.catCreate, Web.tick]
  · intro st i amt c2 st2 h
    cases hc : Web.catGetById st i with
    | none =>
      simp [Web.catUpdateSpent, Web.catUpdate, hc] at h
    | some c =>
      have hmem : c ∈ st.categories ∧ (c.id == i) = true := by
        have hin : c ∈ st.categories.filter (fun x => x.id == i) := by
          simp only [Web.catGetById, Web.getBy] at hc
          exact List.mem_of_mem_head? (by rw [hc]; rfl)
        exact List.mem_filter.mp hin
      simp only [Web.catUpdateSpent, Web.catUpdate, hc, Web.tick] at h
      have h1 := congrArg Prod.fst h
      simp only at h1
      obtain rfl := Option.some.inj h1
      refine ⟨by simp, rfl, c, hmem.1, by simpa using hmem.2, rfl⟩
  · intro st p s st' h
    by_cases hg : (st.settings.any (fun x => x.id == "default")) = true
    · simp [Native.fsCreate, Native.fsInsert, hg] at h
    · simp [Native.fsCreate, Native.fsInsert, hg] at h
      obtain ⟨hs, _⟩ := h
      rw [← hs]
      exact ⟨rfl, rfl⟩

/-- Web store for the C8 witness: one category touched at ticks 1 and 2,
current clock 3. -/
def c8WebStore : Web.St :=
  { categories := [{ id := "h", name := "H", limit := 5, spent := 0, month := "m", createdAt := .tick 1, updatedAt := .tick 2 }],
    clock := 3 }

/-- Witness for C8 amended, instantiating each conjunct at concrete stores. -/
theorem c8_amended_timestamps_witness :
    ((Native.catUpdateSpent c8Store "c" 7).categories.map (fun c => (c.createdAt, c.updatedAt)) =
      c8Store.categories.map (fun c => (c.createdAt, c.updatedAt))) ∧
    (({ id := "h", name := "H", limit := 5, spent := 7, month := "m", createdAt := .tick 1, updatedAt := .tick 3 } : Web.WCategory).spent = 7 ∧
      ({ id := "h", name := "H", limit := 5, spent := 7, month := "m", createdAt := .tick 1, updatedAt := .tick 3 } : Web.WCategory).updatedAt = TS.tick c8WebStore.clock ∧
      ∃ c ∈ c8WebStore.categories, c.id = "h" ∧
        ({ id := "h", name := "H", limit := 5, spent := 7, month := "m", createdAt := .tick 1, updatedAt := .tick 3 } : Web.WCategory).createdAt = c.createdAt) ∧
    (({ id := "default", monthlyIncome := 1, savingsGoal := 2, currentSavings := 0, createdAt := .null, updatedAt := .null } : Native.FSettings).createdAt = TS.null ∧
      ({ id := "default", monthlyIncome := 1, savingsGoal := 2, currentSavings := 0, createdAt := .null, updatedAt := .null } : Native.FSettings).updatedAt = TS.null) :=
  ⟨c8_amended_timestamps.1 c8Store "c" 7,
   c8_amended_timestamps.2.2.2.1 c8WebStore "h" 7
     { id := "h", name := "H", limit := 5, spent := 7, month := "m", createdAt := .tick 1, updatedAt := .tick 3 }
     { categories := [{ id := "h", name := "H", limit := 5, spent := 7, month := "m", createdAt := .tick 1, updatedAt := .tick 3 }], clock := 4 }
     (by decide),
   c8_amended_timestamps.2.2.2.2 {} { monthlyIncome := 1, savingsGoal := 2 }
     { id := "default", monthlyIncome := 1, savingsGoal := 2, currentSavings := 0, createdAt := .null, updatedAt := .null }
     { settings := [{ id := "default", monthlyIncome := 1, savingsGoal := 2, currentSavings := 0, createdAt := .null, updatedAt := .null }] }
     (by decide)⟩

/-! ## Helper lemmas on the savings recompute -/

namespace Native

/-- Unfolding `sumMonth` over a cons cell. -/
theorem sumMonth_cons (e : Expense) (es : List Expense) (m : String) :
    sumMonth (e :: es) m = (if e.month == m then e.amount else 0) + sumMonth es m := by
  by_cases h : (e.month == m) = true <;>
    simp [sumMonth, List.filter_cons, h]

/-- `sumMonth` distributes over append. -/
theorem sumMonth_append (es1 es2 : List Expense) (m : String) :
    sumMonth (es1 ++ es2) m = sumMonth es1 m + sumMonth es2 m := by
  simp [sumMonth, List.filter_append]

/-- A row returned by `msGetByMonth` is a stored row for that month. -/
theorem msGetByMonth_mem (st : St) (m : String) (r : Savings)
    (h : msGetByMonth st m = some r) : r ∈ st.savings ∧ r.month = m := by
  have hin : r ∈ st.savings.filter (fun x => x.month == m) :=
    List.mem_of_mem_head? (by rw [msGetByMonth] at h; rw [h]; rfl)
  have := List.mem_filter.mp hin
  exact ⟨this.1, by simpa using this.2⟩

/-- A member of an `expGetById` result is a stored row with that id. -/
theorem expGetById_mem (st : St) (i : Nat) (e : Expense)
    (h : expGetById st i = some e) : e ∈ st.expenses ∧ e.id = i := by
  have hin : e ∈ st.expenses.filter (fun x => x.id == i) :=
    List.mem_of_mem_head? (by rw [expGetById] at h; rw [h]; rfl)
  have := List.mem_filter.mp hin
  exact ⟨this.1, by simpa using this.2⟩

/-- `getOrCreateForMonth` when the month's row already exists. -/
theorem getOrCreate_of_some (st : St) (m : String) (r : Savings)
    (h : msGetByMonth st m = some r) :
    msGetOrCreateForMonth st m = some (some r, st) := by
  simp [msGetOrCreateForMonth, h]

/-- The row `getOrCreateForMonth` inserts when the month is absent. -/
def freshSavings (st : St) (m : String) : Savings :=
  { idTick := st.clock, month := m,
    income := ((st.settings.head?).map (·.monthlyIncome)).getD 0,
    savingsGoal := ((st.settings.head?).map (·.savingsGoal)).getD 0,
    totalExpenses := 0, totalSaved := 0 }

/-- `getOrCreateForMonth` when the month's row is absent: it inserts a fresh
seeded row and returns it. -/
theorem getOrCreate_of_none (st : St) (m : String)
    (h : msGetByMonth st m = none) :
    msGetOrCreateForMonth st m =
      some (some (freshSavings st m),
        { st with savings := st.savings ++ [freshSavings st m], clock := st.clock + 1 }) := by
  have hnil : st.savings.filter (fun x => x.month == m) = [] := by
    rw [msGetByMonth] at h
    exact List.head?_eq_none_iff.mp h
  have hany : (st.savings.any (fun x => x.month == m)) = false := by
    apply List.any_eq_false.mpr
    intro x hx
    have := List.filter_eq_nil_iff.mp hnil x hx
    simpa using this
  simp [msGetOrCreateForMonth, h, msCreate, tick, msInsert, hany, msGetByMonth,
    List.filter_append, hnil, freshSavings]
  exact Or.inr fun x hx => by simpa using List.filter_eq_nil_iff.mp hnil x hx

end Native

namespace Native

/-- What one `updateMonthlyExpenses` call does to the state, given unique
savings months: expenses and settings are untouched; rows of other months
survive unchanged; every row of the target month ends up consistent with the
current expenses; the target month has a row afterwards; and the savings
month list is preserved or gains `m` at its end. -/
theorem mse_spec (st st' : St) (m : String)
    (h : msUpdateMonthlyExpenses st m = some st')
    (hnd : (st.savings.map (fun r => r.month)).Nodup) :
    st'.expenses = st.expenses ∧
    st'.settings = st.settings ∧
    (st'.savings.map (fun r => r.month) = st.savings.map (fun r => r.month) ∨
      (st'.savings.map (fun r => r.month) = st.savings.map (fun r => r.month) ++ [m] ∧
        m ∉ st.savings.map (fun r => r.month))) ∧
    (∀ r' ∈ st'.savings, r'.month ≠ m → r' ∈ st.savings) ∧
    (∀ r' ∈ st'.savings, r'.month = m →
      r'.totalExpenses = sumMonth st.expenses m ∧
      r'.totalSaved = max 0 (r'.income - r'.totalExpenses)) ∧
    (∃ r' ∈ st'.savings, r'.month = m) := by
  cases hgb : msGetByMonth st m with
  | some r =>
    obtain ⟨hrmem, hrm⟩ := msGetByMonth_mem st m r hgb
    have hval : msUpdateMonthlyExpenses st m = some
        { st with
          savings := st.savings.map (fun x => if x.month == m then
            applySavingsUpd
              { totalExpenses := some (sumMonth st.expenses m),
                totalSaved := some (max 0 (r.income - sumMonth st.expenses m)) }
              st.clock x else x),
          clock := st.clock + 1 } := by
      simp [msUpdateMonthlyExpenses, getOrCreate_of_some st m r hgb, msUpdate, tick]
    rw [hval] at h
    obtain rfl := Option.some.inj h
    refine ⟨rfl, rfl, ?_, ?_, ?_, ?_⟩
    · left
      rw [List.map_map]
      apply List.map_congr_left
      intro a _
      simp only [Function.comp]
      split
      · simp [applySavingsUpd]
      · rfl
    · intro r' hr' hne
      obtain ⟨a, ha, hfa⟩ := List.mem_map.mp hr'
      by_cases ham : (a.month == m) = true
      · rw [if_pos ham] at hfa
        exact absurd (by rw [← hfa]; simpa [applySavingsUpd] using ham) hne
      · rw [if_neg ham] at hfa
        rw [← hfa]
        exact ha
    · intro r' hr' hrm'
      obtain ⟨a, ha, hfa⟩ := List.mem_map.mp hr'
      by_cases ham : (a.month == m) = true
      · rw [if_pos ham] at hfa
        have har : a = r :=
          List.inj_on_of_nodup_map hnd ha hrmem (by rw [hrm]; simpa using ham)
        constructor
        · rw [← hfa]
          simp [applySavingsUpd]
        · rw [← hfa]
          simp [applySavingsUpd, har]
      · rw [if_neg ham] at hfa
        rw [← hfa] at hrm'
        exact absurd (by simp [hrm']) ham
    · refine ⟨(fun x => if (x.month == m) = true then
        applySavingsUpd
          { totalExpenses := some (sumMonth st.expenses m),
            totalSaved := some (max 0 (r.income - sumMonth st.expenses m)) }
          st.clock x else x) r, List.mem_map_of_mem _ hrmem, ?_⟩
      simp [applySavingsUpd, hrm]
  | none =>
    have hnomem : ∀ x ∈ st.savings, x.month ≠ m := by
      intro x hx
      have hnil : st.savings.filter (fun y => y.month == m) = [] := by
        rw [msGetByMonth] at hgb
        exact List.head?_eq_none_iff.mp hgb
      simpa using List.filter_eq_nil_iff.mp hnil x hx
    have hmapfix : ∀ (u : SavingsUpdate) (t : Nat),
        st.savings.map (fun x => if x.month == m then applySavingsUpd u t x else x) =
          st.savings := by
      intro u t
      apply list_map_eq_self
      intro a ha
      rw [if_neg (by simpa using hnomem a ha)]
    have hval : msUpdateMonthlyExpenses st m = some
        { st with
          savings := st.savings ++
            [applySavingsUpd
              { totalExpenses := some (sumMonth st.expenses m),
                totalSaved := some (max 0 ((freshSavings st m).income - sumMonth st.expenses m)) }
              (st.clock + 1) (freshSavings st m)],
          clock := st.clock + 2 } := by
      simp only [msUpdateMonthlyExpenses, getOrCreate_of_none st m hgb,
        Option.bind_eq_bind, Option.some_bind, msUpdate, tick]
      rw [List.map_append, hmapfix]
      simp [applySavingsUpd, freshSavings]
    rw [hval] at h
    obtain rfl := Option.some.inj h
    refine ⟨rfl, rfl, ?_, ?_, ?_, ?_⟩
    · right
      constructor
      · rw [List.map_append]
        simp [applySavingsUpd, freshSavings]
      · simp only [List.mem_map, not_exists, not_and]
        intro x hx _
        exact absurd (by assumption) (hnomem x hx)
    · intro r' hr' hne
      rcases List.mem_append.mp hr' with hin | hin
      · exact hin
      · exfalso
        apply hne
        have : r' = applySavingsUpd _ _ (freshSavings st m) := List.mem_singleton.mp hin
        rw [this]
        simp [applySavingsUpd, freshSavings]
    · intro r' hr' _
      rcases List.mem_append.mp hr' with hin | hin
      · exfalso
        have hm' : r'.month = m := by assumption
        exact hnomem r' hin hm'
      · have : r' = applySavingsUpd _ _ (freshSavings st m) := List.mem_singleton.mp hin
        rw [this]
        constructor
        · simp [applySavingsUpd]
        · simp [applySavingsUpd, freshSavings]
    · refine ⟨_, List.mem_append_right _ (List.mem_singleton_self _), ?_⟩
      simp [applySavingsUpd, freshSavings]

end Native

/-- `l ++ [a]` has no duplicates when `l` does and `a` is fresh. -/
theorem nodup_append_singleton {α : Type} (l : List α) (a : α)
    (h : l.Nodup) (ha : a ∉ l) : (l ++ [a]).Nodup := by
  simp [List.nodup_append, h, ha]

namespace Native

/-- `sumMonth` over the empty table. -/
theorem sumMonth_nil (m : String) : sumMonth [] m = 0 := rfl

/-- `sumMonth` over a one-row table. -/
theorem sumMonth_singleton (e : Expense) (m : String) :
    sumMonth [e] m = if e.month == m then e.amount else 0 := by
  rw [sumMonth_cons]
  simp [sumMonth_nil]

/-- Pointwise rewrites that keep a month's sum unchanged: every row is
either fixed by `f`, or keeps its month and lies outside month `mo`. -/
theorem sumMonth_map_eq (es : List Expense) (f : Expense → Expense) (mo : String)
    (h : ∀ x ∈ es, f x = x ∨ ((f x).month = x.month ∧ x.month ≠ mo)) :
    sumMonth (es.map f) mo = sumMonth es mo := by
  induction es with
  | nil => rfl
  | cons a t ih =>
    rw [List.map_cons, sumMonth_cons, sumMonth_cons,
      ih fun x hx => h x (List.mem_cons_of_mem a hx)]
    congr 1
    rcases h a (List.mem_cons_self a t) with hfa | ⟨hm, hne⟩
    · rw [hfa]
    · simp [hm, hne]

/-- Removing rows of a different month keeps a month's sum unchanged. -/
theorem sumMonth_filter_eq (es : List Expense) (i : Nat) (mo : String)
    (h : ∀ x ∈ es, x.id = i → x.month ≠ mo) :
    sumMonth (es.filter (fun x => !(x.id == i))) mo = sumMonth es mo := by
  induction es with
  | nil => rfl
  | cons a t ih =>
    rw [List.filter_cons]
    split
    next hcond =>
      rw [sumMonth_cons, sumMonth_cons, ih fun x hx hxi => h x (List.mem_cons_of_mem a hx) hxi]
    next hcond =>
      have hid : a.id = i := by simpa using hcond
      have hma : (a.month == mo) = false := by simp [h a (List.mem_cons_self a t) hid]
      rw [ih fun x hx hxi => h x (List.mem_cons_of_mem a hx) hxi, sumMonth_cons, hma]
      simp

/-- The month key `expense.month || getCurrentMonth()`. -/
def resolveMonth (cm m : String) : String := if m == "" then cm else m

/-- The row `expenseService.create` inserts. -/
def newExpenseRow (cm : String) (st : St) (p : NewExpense) : Expense :=
  { id := st.clock, name := p.name, amount := p.amount, category := p.category,
    dueDate := p.dueDate, month := resolveMonth cm p.month, chargeDay := p.chargeDay,
    isPaid := p.isPaid, isRecurring := p.isRecurring }

/-- Computation cases of `expenseService.create`: either some constraint
throws, or the row is inserted (fresh id) and the inserted month recomputed. -/
theorem expCreate_spec (cm : String) (st : St) (p : NewExpense) :
    expCreate cm st p = none ∨
    ∃ st₃, ((st.expenses.any (fun x => x.id == st.clock)) = false) ∧
      msUpdateMonthlyExpenses
        { st with clock := st.clock + 1, expenses := st.expenses ++ [newExpenseRow cm st p] }
        (resolveMonth cm p.month) = some st₃ ∧
      expCreate cm st p = some (expGetById st₃ st.clock, st₃) := by
  by_cases hg : (st.expenses.any (fun x => x.id == st.clock)) = true
  · left
    simp [expCreate, tick, expInsert, hg]
  · have hg' := eq_false_of_ne_true hg
    cases hm : msUpdateMonthlyExpenses
        { st with clock := st.clock + 1, expenses := st.expenses ++ [newExpenseRow cm st p] }
        (resolveMonth cm p.month) with
    | none =>
      left
      simp [expCreate, tick, expInsert, hg', newExpenseRow, resolveMonth] at hm ⊢
      rw [hm]
      simp
    | some st₃ =>
      right
      refine ⟨st₃, hg', rfl, ?_⟩
      simp [expCreate, tick, expInsert, hg', newExpenseRow, resolveMonth] at hm ⊢
      rw [hm]
      simp

/-- Computation cases of `expenseService.update`: an absent id leaves the
stores untouched; a present id rewrites the row and recomputes the
pre-mutation month; a storage error returns `none`. -/
theorem expUpdate_spec (st : St) (i : Nat) (u : ExpenseUpdate) :
    expUpdate st i u = none ∨
    (expGetById st i = none ∧ expUpdate st i u = some (none, { st with clock := st.clock + 1 })) ∨
    ∃ e st₃, expGetById st i = some e ∧
      msUpdateMonthlyExpenses
        { st with clock := st.clock + 1, expenses := st.expenses.map (fun x => if x.id == i then applyExpUpd u st.clock x else x) }
        e.month = some st₃ ∧
      expUpdate st i u = some (expGetById st₃ i, st₃) := by
  cases hpre : expGetById st i with
  | none =>
    right; left
    have hnone : ∀ x ∈ st.expenses, ¬(x.id == i) := by
      intro x hx hxi
      have hmem : x ∈ st.expenses.filter (fun y => y.id == i) := List.mem_filter.mpr ⟨hx, hxi⟩
      rw [expGetById] at hpre
      rw [List.head?_eq_none_iff.mp hpre] at hmem
      simp at hmem
    have hpre' : expGetById { st with clock := st.clock + 1 } i = none := hpre
    refine ⟨rfl, ?_⟩
    simp only [expUpdate, tick]
    rw [hpre']
    simp [expGetById, List.filter_eq_nil_iff.mpr hnone]
    constructor
    · intro x hx
      rw [if_neg (by simpa using hnone x hx)]
      exact (by simpa using hnone x hx)
    · exact list_map_eq_self _ _ fun a ha => if_neg (by simpa using hnone a ha)
  | some e =>
    have hpre' : expGetById { st with clock := st.clock + 1 } i = some e := hpre
    cases hm : msUpdateMonthlyExpenses
        { st with clock := st.clock + 1, expenses := st.expenses.map (fun x => if x.id == i then applyExpUpd u st.clock x else x) }
        e.month with
    | none =>
      left
      simp only [expUpdate, tick]
      rw [hpre']
      simp at hm
      simp [hm]
    | some st₃ =>
      right; right
      refine ⟨e, st₃, rfl, hm, ?_⟩
      simp only [expUpdate, tick]
      rw [hpre']
      simp at hm
      simp [hm]

/-- Computation cases of `expenseService.delete`. -/
theorem expDelete_spec (st : St) (i : Nat) :
    expDelete st i = none ∨
    (expGetById st i = none ∧ expDelete st i = some st) ∨
    ∃ e st₃, expGetById st i = some e ∧
      msUpdateMonthlyExpenses
        { st with expenses := st.expenses.filter (fun x => !(x.id == i)) } e.month = some st₃ ∧
      expDelete st i = some st₃ := by
  cases hpre : expGetById st i with
  | none =>
    right; left
    have hnone : ∀ x ∈ st.expenses, ¬(x.id == i) := by
      intro x hx hxi
      have hmem : x ∈ st.expenses.filter (fun y => y.id == i) := List.mem_filter.mpr ⟨hx, hxi⟩
      rw [expGetById] at hpre
      rw [List.head?_eq_none_iff.mp hpre] at hmem
      simp at hmem
    have hkeep : st.expenses.filter (fun x => !(x.id == i)) = st.expenses :=
      List.filter_eq_self.mpr (by intro a ha; simpa using hnone a ha)
    refine ⟨rfl, ?_⟩
    simp only [expDelete]
    rw [hpre]
    simp [hkeep]
  | some e =>
    cases hm : msUpdateMonthlyExpenses
        { st with expenses := st.expenses.filter (fun x => !(x.id == i)) } e.month with
    | none =>
      left
      simp only [expDelete]
      rw [hpre]
      simp [hm]
    | some st₃ =>
      right; right
      refine ⟨e, st₃, rfl, hm, ?_⟩
      simp only [expDelete]
      rw [hpre]
      simp [hm]

end Native

namespace Native

/-- A month has a savings row iff it is in the savings month list. -/
theorem months_mem_iff (st : St) (mo : String) :
    (∃ r ∈ st.savings, r.month = mo) ↔ mo ∈ st.savings.map (fun r => r.month) := by
  simp [List.mem_map]

/-- `expenseService.create` preserves the expense/savings invariant. -/
theorem expCreate_inv (cm : String) (st : St) (p : NewExpense) (res : Option Expense × St)
    (h : expCreate cm st p = some res) (hInv : ExpInv st) : ExpInv res.2 := by
  obtain ⟨hnid, hnmon, hcons, hcov⟩ := hInv
  rcases expCreate_spec cm st p with hnone | ⟨st₃, hg, hm, heq⟩
  · rw [hnone] at h
    exact absurd h (by simp)
  · rw [heq] at h
    obtain rfl := Option.some.inj h
    have hnmon' : ((({ st with clock := st.clock + 1, expenses := st.expenses ++ [newExpenseRow cm st p] } : St).savings).map (fun r => r.month)).Nodup := hnmon
    obtain ⟨hex, hset, hmons, hold, hnew, hexist⟩ :=
      mse_spec _ st₃ (resolveMonth cm p.month) hm hnmon'
    have hfresh : st.clock ∉ st.expenses.map (fun e => e.id) := by
      intro hmem
      obtain ⟨x, hx, hxid⟩ := List.mem_map.mp hmem
      have := List.any_eq_false.mp hg x hx
      simp [hxid] at this
    refine ⟨?_, ?_, ?_, ?_⟩
    · rw [hex]
      show ((st.expenses ++ [newExpenseRow cm st p]).map (fun e => e.id)).Nodup
      rw [List.map_append]
      exact nodup_append_singleton _ _ hnid (by simpa [newExpenseRow] using hfresh)
    · rcases hmons with hmons | ⟨hmons, hnotin⟩
      · rw [hmons]
        exact hnmon
      · rw [hmons]
        exact nodup_append_singleton _ _ hnmon hnotin
    · intro r' hr'
      by_cases hrm : r'.month = resolveMonth cm p.month
      · have := hnew r' hr' hrm
        rw [hex]
        rw [hrm]
        exact this
      · have hin := hold r' hr' hrm
        have hc := hcons r' hin
        rw [hex]
        show r'.totalExpenses = sumMonth (st.expenses ++ [newExpenseRow cm st p]) r'.month ∧ _
        rw [sumMonth_append, sumMonth_singleton]
        have : ((newExpenseRow cm st p).month == r'.month) = false := by
          simp [newExpenseRow]
          exact fun hc' => hrm hc'.symm
        rw [this]
        simpa using hc
    · intro e' he'
      rw [hex] at he'
      rcases List.mem_append.mp he' with hin | hin
      · obtain ⟨rr, hrr, hrrm⟩ := hcov e' hin
        have hmem : e'.month ∈ st.savings.map (fun r => r.month) :=
          (months_mem_iff st e'.month).mp ⟨rr, hrr, hrrm⟩
        apply (months_mem_iff st₃ e'.month).mpr
        rcases hmons with hmons | ⟨hmons, _⟩
        · rw [hmons]
          exact hmem
        · rw [hmons]
          exact List.mem_append_left _ hmem
      · have : e' = newExpenseRow cm st p := List.mem_singleton.mp hin
        obtain ⟨r'', hr'', hr''m⟩ := hexist
        exact ⟨r'', hr'', by rw [this, hr''m]; rfl⟩

/-- A month-free `expenseService.update` preserves the invariant. -/
theorem expUpdate_inv (st : St) (i : Nat) (u : ExpenseUpdate) (res : Option Expense × St)
    (h : expUpdate st i u = some res) (hu : u.month = none) (hInv : ExpInv st) : ExpInv res.2 := by
  obtain ⟨hnid, hnmon, hcons, hcov⟩ := hInv
  rcases expUpdate_spec st i u with hnone | ⟨hpre, heq⟩ | ⟨e, st₃, hpre, hm, heq⟩
  · rw [hnone] at h
    exact absurd h (by simp)
  · rw [heq] at h
    obtain rfl := Option.some.inj h
    exact ⟨hnid, hnmon, hcons, hcov⟩
  · rw [heq] at h
    obtain rfl := Option.some.inj h
    obtain ⟨hemem, heid⟩ := expGetById_mem st i e hpre
    have hnmon' : ((({ st with clock := st.clock + 1, expenses := st.expenses.map (fun x => if x.id == i then applyExpUpd u st.clock x else x) } : St).savings).map (fun r => r.month)).Nodup := hnmon
    obtain ⟨hex, hset, hmons, hold, hnew, hexist⟩ := mse_spec _ st₃ e.month hm hnmon'
    have hmonth_pres : ∀ x, (if x.id == i then applyExpUpd u st.clock x else x).month = x.month := by
      intro x
      split
      · simp [applyExpUpd, hu]
      · rfl
    have huniq : ∀ x ∈ st.expenses, x.id = i → x = e :=
      fun x hx hxi => List.inj_on_of_nodup_map hnid hx hemem (by rw [hxi, heid])
    refine ⟨?_, ?_, ?_, ?_⟩
    · rw [hex]
      show ((st.expenses.map (fun x => if x.id == i then applyExpUpd u st.clock x else x)).map (fun e => e.id)).Nodup
      rw [List.map_map]
      have : ((fun e : Expense => e.id) ∘ fun x => if x.id == i then applyExpUpd u st.clock x else x) = fun e : Expense => e.id := by
        funext x
        simp only [Function.comp]
        split
        · simp [applyExpUpd]
        · rfl
      rw [this]
      exact hnid
    · rcases hmons with hmons | ⟨hmons, hnotin⟩
      · rw [hmons]
        exact hnmon
      · rw [hmons]
        exact nodup_append_singleton _ _ hnmon hnotin
    · intro r' hr'
      by_cases hrm : r'.month = e.month
      · have := hnew r' hr' hrm
        rw [hex, hrm]
        exact this
      · have hin := hold r' hr' hrm
        have hc := hcons r' hin
        rw [hex]
        show r'.totalExpenses = sumMonth (st.expenses.map (fun x => if x.id == i then applyExpUpd u st.clock x else x)) r'.month ∧ _
        rw [sumMonth_map_eq]
        · exact hc
        · intro x hx
          by_cases hxi : x.id = i
          · right
            have hxe := huniq x hx hxi
            refine ⟨hmonth_pres x, ?_⟩
            rw [hxe]
            exact fun hc' => hrm hc'.symm
          · left
            rw [if_neg (by simpa using hxi)]
    · intro e' he'
      rw [hex] at he'
      obtain ⟨x, hx, hfx⟩ := List.mem_map.mp he'
      obtain ⟨rr, hrr, hrrm⟩ := hcov x hx
      have hmem : x.month ∈ st.savings.map (fun r => r.month) :=
        (months_mem_iff st x.month).mp ⟨rr, hrr, hrrm⟩
      have he'm : e'.month = x.month := by
        rw [← hfx]
        exact hmonth_pres x
      apply (months_mem_iff st₃ e'.month).mpr
      rw [he'm]
      rcases hmons with hmons | ⟨hmons, _⟩
      · rw [hmons]
        exact hmem
      · rw [hmons]
        exact List.mem_append_left _ hmem

/-- `expenseService.delete` preserves the invariant. -/
theorem expDelete_inv (st : St) (i : Nat) (st' : St)
    (h : expDelete st i = some st') (hInv : ExpInv st) : ExpInv st' := by
  obtain ⟨hnid, hnmon, hcons, hcov⟩ := hInv
  rcases expDelete_spec st i with hnone | ⟨hpre, heq⟩ | ⟨e, st₃, hpre, hm, heq⟩
  · rw [hnone] at h
    exact absurd h (by simp)
  · rw [heq] at h
    obtain rfl := Option.some.inj h
    exact ⟨hnid, hnmon, hcons, hcov⟩
  · rw [heq] at h
    obtain rfl := Option.some.inj h
    obtain ⟨hemem, heid⟩ := expGetById_mem st i e hpre
    have hnmon' : ((({ st with expenses := st.expenses.filter (fun x => !(x.id == i)) } : St).savings).map (fun r => r.month)).Nodup := hnmon
    obtain ⟨hex, hset, hmons, hold, hnew, hexist⟩ := mse_spec _ st₃ e.month hm hnmon'
    have huniq : ∀ x ∈ st.expenses, x.id = i → x = e :=
      fun x hx hxi => List.inj_on_of_nodup_map hnid hx hemem (by rw [hxi, heid])
    refine ⟨?_, ?_, ?_, ?_⟩
    · rw [hex]
      show (((st.expenses.filter (fun x => !(x.id == i)))).map (fun e => e.id)).Nodup
      exact hnid.sublist ((List.filter_sublist st.expenses).map (fun e => e.id))
    · rcases hmons with hmons | ⟨hmons, hnotin⟩
      · rw [hmons]
        exact hnmon
      · rw [hmons]
        exact nodup_append_singleton _ _ hnmon hnotin
    · intro r' hr'
      by_cases hrm : r'.month = e.month
      · have := hnew r' hr' hrm
        rw [hex, hrm]
        exact this
      · have hin := hold r' hr' hrm
        have hc := hcons r' hin
        rw [hex]
        show r'.totalExpenses = sumMonth (st.expenses.filter (fun x => !(x.id == i))) r'.month ∧ _
        rw [sumMonth_filter_eq]
        · exact hc
        · intro x hx hxi
          rw [huniq x hx hxi]
          exact fun hc' => hrm hc'.symm
    · intro e' he'
      rw [hex] at he'
      have hin : e' ∈ st.expenses := (List.mem_filter.mp he').1
      obtain ⟨rr, hrr, hrrm⟩ := hcov e' hin
      have hmem : e'.month ∈ st.savings.map (fun r => r.month) :=
        (months_mem_iff st e'.month).mp ⟨rr, hrr, hrrm⟩
      apply (months_mem_iff st₃ e'.month).mpr
      rcases hmons with hmons | ⟨hmons, _⟩
      · rw [hmons]
        exact hmem
      · rw [hmons]
        exact List.mem_append_left _ hmem

/-- One expense mutation preserves the invariant. -/
theorem runEOp_inv (cm : String) (st st₁ : St) (op : EOp) (hop : op.monthFree)
    (h : runEOp cm st op = some st₁) (hInv : ExpInv st) : ExpInv st₁ := by
  cases op with
  | create p =>
    cases hc : expCreate cm st p with
    | none => rw [runEOp, hc] at h; exact absurd h (by simp)
    | some res =>
      rw [runEOp, hc] at h
      obtain rfl := Option.some.inj h
      exact expCreate_inv cm st p res hc hInv
  | update i u =>
    cases hc : expUpdate st i u with
    | none => rw [runEOp, hc] at h; exact absurd h (by simp)
    | some res =>
      rw [runEOp, hc] at h
      obtain rfl := Option.some.inj h
      exact expUpdate_inv st i u res hc hop hInv
  | delete i =>
    exact expDelete_inv st i st₁ h hInv

/-- A sequence of month-free expense mutations preserves the invariant. -/
theorem runEOps_inv (cm : String) (ops : List EOp) : ∀ st st' : St,
    (∀ op ∈ ops, op.monthFree) → runEOps cm ops st = some st' → ExpInv st → ExpInv st' := by
  induction ops with
  | nil =>
    intro st st' _ h hI
    rw [runEOps, List.foldlM_nil] at h
    obtain rfl := Option.some.inj h
    exact hI
  | cons op ops ih =>
    intro st st' hops h hI
    rw [runEOps, List.foldlM_cons] at h
    cases hc : runEOp cm st op with
    | none => rw [hc] at h; exact absurd h (by simp)
    | some st₁ =>
      rw [hc] at h
      exact ih st₁ st' (fun o ho => hops o (List.mem_cons_of_mem op ho))
        h (runEOp_inv cm st st₁ op (hops op (List.mem_cons_self op ops)) hc hI)

end Native

/-! ## C1 — monthly savings invariant -/

/-- Initial store for the C1 counterexample: settings with income 100. -/
def c1Init : Native.St :=
  { settings := [{ id := "default", monthlyIncome := 100, savingsGoal := 0 }] }

/-- Two creates in different months, then an update that moves the first
expense (id 0) from January to February. -/
def c1Ops : List Native.EOp :=
  [ .create { name := "A", amount := 10, category := "c", dueDate := "d", month := "2025-01" },
    .create { name := "B", amount := 20, category := "c", dueDate := "d", month := "2025-02" },
    .update 0 { month := some "2025-02" } ]

/-- C1 fails as stated: after an update moves expense A into 2025-02, the
recompute runs only for the pre-mutation month 2025-01 (which does end up
consistent), while the stored `MonthlySavings` row for 2025-02 still says
`totalExpenses = 20` although the expenses of 2025-02 now sum to 30. -/
theorem c1_counterexample_month_change :
    (Native.runEOps "2025-09" c1Ops c1Init).any
      (fun st => st.savings.any (fun r =>
        r.month == "2025-02" &&
        !(r.totalExpenses == Native.sumMonth st.expenses "2025-02"))) = true ∧
    (Native.runEOps "2025-09" c1Ops c1Init).any
      (fun st => Native.sumMonth st.expenses "2025-02" == 30) = true := by
  constructor <;> decide

/-- C1 amended: starting from an empty store, after any sequence of
`expenseService` create/update/delete calls in which no update payload sets
the `month` field, every stored `MonthlySavings` row satisfies
`totalExpenses = Σ amount over the expenses of its month` and
`totalSaved = max 0 (income − totalExpenses)`, and every month holding an
expense has a savings row. (On update/delete the recompute targets the
expense's pre-mutation month as read before the store mutation; an update
that changes the month leaves the new month's aggregate stale, which is what
the unamended claim fails on.) -/
theorem c1_amended_savings_invariant (cm : String) (ops : List Native.EOp)
    (st0 st' : Native.St)
    (h0e : st0.expenses = []) (h0s : st0.savings = [])
    (hops : ∀ op ∈ ops, op.monthFree)
    (h : Native.runEOps cm ops st0 = some st') :
    Native.savingsConsistent st' ∧ Native.monthCovered st' := by
  have hInv : Native.ExpInv st0 := by
    refine ⟨?_, ?_, ?_, ?_⟩ <;>
      simp [h0e, h0s, Native.savingsConsistent, Native.monthCovered]
  have := Native.runEOps_inv cm ops st0 st' hops h hInv
  exact ⟨this.2.2.1, this.2.2.2⟩

/-- Witness for C1 amended: one concrete create on an empty store. -/
theorem c1_amended_savings_invariant_witness :
    Native.savingsConsistent
      { expenses := [{ id := 0, name := "A", amount := 10, category := "c", dueDate := "d", month := "2025-01" }],
        savings := [{ idTick := 1, month := "2025-01", income := 100, totalExpenses := 10, totalSaved := 90, savingsGoal := 0, updatedAt := .tick 2 }],
        settings := [{ id := "default", monthlyIncome := 100, savingsGoal := 0 }],
        clock := 3 } ∧
    Native.monthCovered
      { expenses := [{ id := 0, name := "A", amount := 10, category := "c", dueDate := "d", month := "2025-01" }],
        savings := [{ idTick := 1, month := "2025-01", income := 100, totalExpenses := 10, totalSaved := 90, savingsGoal := 0, updatedAt := .tick 2 }],
        settings := [{ id := "default", monthlyIncome := 100, savingsGoal := 0 }],
        clock := 3 } :=
  c1_amended_savings_invariant "2025-09"
    [ .create { name := "A", amount := 10, category := "c", dueDate := "d", month := "2025-01" } ]
    { settings := [{ id := "default", monthlyIncome := 100, savingsGoal := 0 }] }
    { expenses := [{ id := 0, name := "A", amount := 10, category := "c", dueDate := "d", month := "2025-01" }],
      savings := [{ idTick := 1, month := "2025-01", income := 100, totalExpenses := 10, totalSaved := 90, savingsGoal := 0, updatedAt := .tick 2 }],
      settings := [{ id := "default", monthlyIncome := 100, savingsGoal := 0 }],
      clock := 3 }
    rfl rfl
    (by intro op hop; rw [List.mem_singleton] at hop; subst hop; exact trivial)
    (by decide)

/-! ## Helper lemmas on the grocery-list recompute -/

namespace Native

/-- The item row `groceryItemService.create` inserts. -/
def newItemRow (st : St) (p : NewGItem) : GItem :=
  { id := st.clock, listId := p.listId, name := p.name, quantity := p.quantity,
    pricePerUnit := p.pricePerUnit, totalCost := p.totalCost,
    isPurchased := p.isPurchased, storeLocation := p.storeLocation }

/-- The price-history row `groceryItemService.create` appends: the item id
is the call's first tick, the date string its second, the history id its
third (written in ticked form to mirror the computation). -/
def newHistRow (st : St) (p : NewGItem) : PHist :=
  { id := st.clock + 1 + 1, itemId := some st.clock, price := p.pricePerUnit, date := st.clock + 1 }

/-- The store after the inserts of `groceryItemService.create`, before the
list-total recompute. -/
def itemCreatedMid (st : St) (p : NewGItem) : St :=
  { st with clock := st.clock + 1 + 1 + 1, items := st.items ++ [newItemRow st p], history := st.history ++ [newHistRow st p] }

/-- The store after `groceryItemService.create`. -/
def itemCreatedState (st : St) (p : NewGItem) : St :=
  match p.listId with
  | some lid => listUpdateTotalCost (itemCreatedMid st p) lid
  | none => itemCreatedMid st p

/-- The store after `groceryItemService.update` found the row. -/
def itemUpdatedState (st : St) (i : Nat) (u : GItemUpdate) : St :=
  let stM : St := { st with clock := st.clock + 1, items := st.items.map (fun x => if x.id == i then applyItemUpd u st.clock x else x) }
  match itemGetById stM i with
  | some x => match x.listId with
    | some lid => listUpdateTotalCost stM lid
    | none => stM
  | none => stM

/-- A member of an `itemGetById` result is a stored row with that id. -/
theorem itemGetById_mem (st : St) (i : Nat) (e : GItem)
    (h : itemGetById st i = some e) : e ∈ st.items ∧ e.id = i := by
  have hin : e ∈ st.items.filter (fun x => x.id == i) :=
    List.mem_of_mem_head? (by rw [itemGetById] at h; rw [h]; rfl)
  have := List.mem_filter.mp hin
  exact ⟨this.1, by simpa using this.2⟩

/-- Computation cases of `groceryItemService.create`. -/
theorem itemCreate_spec (st : St) (p : NewGItem) :
    itemCreate st p = none ∨
    (((st.items.any (fun x => x.id == st.clock)) = false) ∧
      itemCreate st p = some (itemGetById (itemCreatedState st p) st.clock, itemCreatedState st p)) := by
  by_cases hg : (st.items.any (fun x => x.id == st.clock)) = true
  · left
    simp [itemCreate, tick, itemInsert, hg]
  · have hg' := eq_false_of_ne_true hg
    by_cases hh : ((st.history.any (fun x => x.id == st.clock + 1 + 1)) = true)
    · have hhE : ∃ x ∈ st.history, x.id = st.clock + 1 + 1 := by
        obtain ⟨x, hx, hxe⟩ := List.any_eq_true.mp hh
        exact ⟨x, hx, by simpa using hxe⟩
      left
      cases hL : p.listId with
      | none =>
        simp [itemCreate, tick, itemInsert, hg', hL, phCreate, phInsert, hhE, newItemRow]
      | some lid =>
        by_cases hfk : (st.lists.any (fun x => x.id == lid)) = true
        · simp [itemCreate, tick, itemInsert, hg', hL, hfk, phCreate, phInsert, hhE, newItemRow]
        · simp [itemCreate, tick, itemInsert, hg', hL, eq_false_of_ne_true hfk]
    · have hh' := eq_false_of_ne_true hh
      have hhE : ¬∃ x ∈ st.history, x.id = st.clock + 1 + 1 := by
        rintro ⟨x, hx, hxe⟩
        have := List.any_eq_false.mp hh' x hx
        simp [hxe] at this
      cases hL : p.listId with
      | none =>
        right
        refine ⟨hg', ?_⟩
        have hfkE : ∃ x ∈ st.items ++ [({ id := st.clock, listId := none, name := p.name, quantity := p.quantity, pricePerUnit := p.pricePerUnit, totalCost := p.totalCost, isPurchased := p.isPurchased, storeLocation := p.storeLocation } : GItem)], x.id = st.clock :=
          ⟨_, List.mem_append_right _ (List.mem_singleton_self _), rfl⟩
        simp [itemCreate, tick, itemInsert, hg', hL, phCreate, phInsert, hhE,
          itemCreatedState, itemCreatedMid, newItemRow, newHistRow]
        rw [if_pos hfkE]
        simp
      | some lid =>
        by_cases hfk : (st.lists.any (fun x => x.id == lid)) = true
        · right
          refine ⟨hg', ?_⟩
          have hfkE : ∃ x ∈ st.items ++ [({ id := st.clock, listId := some lid, name := p.name, quantity := p.quantity, pricePerUnit := p.pricePerUnit, totalCost := p.totalCost, isPurchased := p.isPurchased, storeLocation := p.storeLocation } : GItem)], x.id = st.clock :=
            ⟨_, List.mem_append_right _ (List.mem_singleton_self _), rfl⟩
          simp [itemCreate, tick, itemInsert, hg', hL, hfk, phCreate, phInsert, hhE,
            itemCreatedState, itemCreatedMid, newItemRow, newHistRow]
          rw [if_pos hfkE]
          simp
        · left
          simp [itemCreate, tick, itemInsert, hg', hL, eq_false_of_ne_true hfk]

/-- Computation cases of a `listId`-free `groceryItemService.update`. -/
theorem itemUpdate_spec (st : St) (i : Nat) (u : GItemUpdate) (hu : u.listId = none) :
    (itemGetById st i = none ∧ itemUpdate st i u = some (none, { st with clock := st.clock + 1 })) ∨
    ((st.items.any (fun x => x.id == i)) = true ∧
      itemUpdate st i u = some (itemGetById (itemUpdatedState st i u) i, itemUpdatedState st i u)) := by
  by_cases hfound : (st.items.any (fun x => x.id == i)) = true
  · right
    refine ⟨hfound, ?_⟩
    simp [itemUpdate, tick, hfound, hu, itemUpdatedState]
  · left
    have hfound' := eq_false_of_ne_true hfound
    have hnone : ∀ x ∈ st.items, ¬(x.id == i) := by
      intro x hx
      have := List.any_eq_false.mp hfound' x hx
      simpa using this
    have hget : itemGetById st i = none := by
      rw [itemGetById, List.filter_eq_nil_iff.mpr hnone]
      rfl
    refine ⟨hget, ?_⟩
    have hget' : itemGetById { st with clock := st.clock + 1 } i = none := hget
    simp [itemUpdate, tick, hfound', hget']

end Native

namespace Native

/-- Pointwise rewrites that keep a list's item set unchanged: every item is
either fixed by `f`, or lies outside list `L` both before and after. -/
theorem itemsFilter_map_eq (es : List GItem) (f : GItem → GItem) (L : Nat)
    (h : ∀ y ∈ es, f y = y ∨ ((y.listId == some L) = false ∧ ((f y).listId == some L) = false)) :
    (es.map f).filter (fun x => x.listId == some L) = es.filter (fun x => x.listId == some L) := by
  induction es with
  | nil => rfl
  | cons a t ih =>
    have iht := ih fun y hy => h y (List.mem_cons_of_mem a hy)
    rcases h a (List.mem_cons_self a t) with hfa | ⟨h1, h2⟩
    · rw [List.map_cons, List.filter_cons, List.filter_cons, hfa, iht]
    · rw [List.map_cons, List.filter_cons, List.filter_cons, h1, h2, iht]
      simp

/-- Removing the rows of one id keeps a list's item set unchanged when no
row of that id belongs to the list. -/
theorem itemsFilter_remove_eq (es : List GItem) (i L : Nat)
    (h : ∀ y ∈ es, y.id = i → (y.listId == some L) = false) :
    (es.filter (fun x => !(x.id == i))).filter (fun x => x.listId == some L) =
      es.filter (fun x => x.listId == some L) := by
  induction es with
  | nil => rfl
  | cons a t ih =>
    have iht := ih fun y hy hyi => h y (List.mem_cons_of_mem a hy) hyi
    rw [List.filter_cons]
    split
    next hcond =>
      rw [List.filter_cons, List.filter_cons, iht]
    next hcond =>
      have hid : a.id = i := by simpa using hcond
      have hla := h a (List.mem_cons_self a t) hid
      rw [List.filter_cons, hla, iht]
      simp

/-- After `updateTotalCost`, every list is consistent, provided every list
other than the recomputed one already was. -/
theorem lutc_consistent (st : St) (lid : Nat)
    (h : ∀ l ∈ st.lists, l.id ≠ lid →
      l.totalCost = ((itemsByList st l.id).map (fun x => x.totalCost)).sum) :
    groceryConsistent (listUpdateTotalCost st lid) := by
  intro l' hl'
  simp only [listUpdateTotalCost] at hl'
  obtain ⟨l, hl, hfl⟩ := List.mem_map.mp hl'
  by_cases hid : l.id = lid
  · rw [← hfl, if_pos (by simpa using hid)]
    show ((itemsByList st lid).map (fun x => x.totalCost)).sum = _
    have : itemsByList (listUpdateTotalCost st lid) l.id = itemsByList st lid := by
      simp [itemsByList, listUpdateTotalCost, hid]
    rw [this]
  · rw [← hfl, if_neg (by simpa using hid)]
    have : itemsByList (listUpdateTotalCost st lid) l.id = itemsByList st l.id := by
      simp [itemsByList, listUpdateTotalCost]
    rw [this]
    exact h l hl hid

end Native

namespace Native

/-- `groceryItemService.create` preserves the item/list invariant. -/
theorem itemCreate_inv (st : St) (p : NewGItem) (res : Option GItem × St)
    (h : itemCreate st p = some res) (hInv : GroInv st) : GroInv res.2 := by
  obtain ⟨hnid, hcons⟩ := hInv
  rcases itemCreate_spec st p with hn | ⟨hg, heq⟩
  · rw [hn] at h
    exact absurd h (by simp)
  · rw [heq] at h
    obtain rfl := Option.some.inj h
    have hfresh : st.clock ∉ st.items.map (fun x => x.id) := by
      intro hmem
      obtain ⟨x, hx, hxid⟩ := List.mem_map.mp hmem
      have := List.any_eq_false.mp hg x hx
      simp [hxid] at this
    have hitems : (itemCreatedState st p).items = st.items ++ [newItemRow st p] := by
      cases hL : p.listId <;>
        simp [itemCreatedState, itemCreatedMid, listUpdateTotalCost, hL]
    constructor
    · rw [hitems]
      show ((st.items ++ [newItemRow st p]).map (fun x => x.id)).Nodup
      rw [List.map_append]
      exact nodup_append_singleton _ _ hnid (by simpa [newItemRow] using hfresh)
    · have hbase : ∀ (L : Nat), (newItemRow st p).listId ≠ some L →
          itemsByList (itemCreatedMid st p) L = itemsByList st L := by
        intro L hL
        show (st.items ++ [newItemRow st p]).filter (fun x => x.listId == some L) = _
        rw [List.filter_append]
        have hfa : ((newItemRow st p).listId == some L) = false := by simpa using hL
        have : [newItemRow st p].filter (fun x => x.listId == some L) = [] := by
          simp [List.filter, hfa]
        rw [this, List.append_nil]
        rfl
      cases hL : p.listId with
      | none =>
        simp only [itemCreatedState, hL]
        intro l hl
        have hl' : l ∈ st.lists := hl
        have := hbase l.id (by simp [newItemRow, hL])
        rw [show itemsByList (itemCreatedMid st p) l.id = _ from this]
        exact hcons l hl'
      | some lid =>
        simp only [itemCreatedState, hL]
        apply lutc_consistent
        intro l hl hne
        have hl' : l ∈ st.lists := hl
        have := hbase l.id (by simp [newItemRow, hL]; exact fun hc => hne hc.symm)
        rw [show itemsByList (itemCreatedMid st p) l.id = _ from this]
        exact hcons l hl'

/-- A `listId`-free `groceryItemService.update` preserves the invariant. -/
theorem itemUpdate_inv (st : St) (i : Nat) (u : GItemUpdate) (res : Option GItem × St)
    (h : itemUpdate st i u = some res) (hu : u.listId = none) (hInv : GroInv st) : GroInv res.2 := by
  obtain ⟨hnid, hcons⟩ := hInv
  rcases itemUpdate_spec st i u hu with ⟨hpre, heq⟩ | ⟨hfound, heq⟩
  · rw [heq] at h
    obtain rfl := Option.some.inj h
    exact ⟨hnid, hcons⟩
  · rw [heq] at h
    obtain rfl := Option.some.inj h
    obtain ⟨e₀, he₀, he₀i⟩ := List.any_eq_true.mp hfound
    have he₀i' : e₀.id = i := by simpa using he₀i
    have huniq : ∀ x ∈ st.items, x.id = i → x = e₀ :=
      fun x hx hxi => List.inj_on_of_nodup_map hnid hx he₀ (by rw [hxi, he₀i'])
    have hidpres : ∀ x, (if x.id == i then applyItemUpd u st.clock x else x).id = x.id := by
      intro x
      split
      · rfl
      · rfl
    have hlistpres : ∀ x, (if x.id == i then applyItemUpd u st.clock x else x).listId = x.listId := by
      intro x
      split
      · simp [applyItemUpd, hu]
      · rfl
    have hnid' : (((st.items.map (fun x => if x.id == i then applyItemUpd u st.clock x else x))).map (fun x => x.id)).Nodup := by
      rw [List.map_map]
      have : ((fun x : GItem => x.id) ∘ fun x => if x.id == i then applyItemUpd u st.clock x else x) = fun x : GItem => x.id := by
        funext x
        exact hidpres x
      rw [this]
      exact hnid
    have hfilters : ∀ (L : Nat), e₀.listId ≠ some L →
        (st.items.map (fun x => if x.id == i then applyItemUpd u st.clock x else x)).filter
          (fun x => x.listId == some L) = st.items.filter (fun x => x.listId == some L) := by
      intro L hL
      apply itemsFilter_map_eq
      intro y hy
      by_cases hyi : y.id = i
      · right
        have hye : y = e₀ := huniq y hy hyi
        constructor
        · rw [hye]
          simp [hL]
        · rw [hlistpres y, hye]
          simp [hL]
      · left
        rw [if_neg (by simpa using hyi)]
    -- the post-mutation lookup returns the rewritten row
    cases hpost : itemGetById { st with clock := st.clock + 1, items := st.items.map (fun x => if x.id == i then applyItemUpd u st.clock x else x) } i with
    | none =>
      exfalso
      have : (if e₀.id == i then applyItemUpd u st.clock e₀ else e₀) ∈
          (st.items.map (fun x => if x.id == i then applyItemUpd u st.clock x else x)).filter
            (fun x => x.listId == some 0 || true) := by
        simp
        exact ⟨e₀, he₀, rfl⟩
      have hmem2 : (if e₀.id == i then applyItemUpd u st.clock e₀ else e₀) ∈
          (st.items.map (fun x => if x.id == i then applyItemUpd u st.clock x else x)).filter
            (fun x => x.id == i) := by
        apply List.mem_filter.mpr
        constructor
        · exact List.mem_map_of_mem _ he₀
        · rw [hidpres e₀, he₀i']
          simp
      rw [itemGetById] at hpost
      rw [List.head?_eq_none_iff.mp hpost] at hmem2
      simp at hmem2
    | some x =>
      obtain ⟨hxmem, hxid⟩ := itemGetById_mem _ i x hpost
      obtain ⟨y, hy, hfy⟩ := List.mem_map.mp hxmem
      have hyi : y.id = i := by rw [← hidpres y, hfy, hxid]
      have hye : y = e₀ := huniq y hy hyi
      have hxl : x.listId = e₀.listId := by
        rw [← hfy, hlistpres y, hye]
      constructor
      · have : (itemUpdatedState st i u).items =
            st.items.map (fun x => if x.id == i then applyItemUpd u st.clock x else x) := by
          simp only [itemUpdatedState, hpost]
          cases x.listId <;> simp [listUpdateTotalCost]
        rw [this]
        exact hnid'
      · simp only [itemUpdatedState, hpost]
        cases hxL : x.listId with
        | none =>
          intro l hl
          have hl' : l ∈ st.lists := hl
          have hf := hfilters l.id (by rw [← hxl, hxL]; simp)
          show l.totalCost = ((List.filter (fun y => y.listId == some l.id) (st.items.map (fun z => if z.id == i then applyItemUpd u st.clock z else z))).map (fun y => y.totalCost)).sum
          rw [hf]
          exact hcons l hl'
        | some lid =>
          apply lutc_consistent
          intro l hl hne
          have hl' : l ∈ st.lists := hl
          have hf := hfilters l.id (by rw [← hxl, hxL]; simp; exact fun hc => hne hc.symm)
          show l.totalCost = ((List.filter (fun y => y.listId == some l.id) (st.items.map (fun z => if z.id == i then applyItemUpd u st.clock z else z))).map (fun y => y.totalCost)).sum
          rw [hf]
          exact hcons l hl'

/-- `groceryItemService.delete` preserves the invariant. -/
theorem itemDelete_inv (st : St) (i : Nat) (hInv : GroInv st) : GroInv (itemDelete st i) := by
  obtain ⟨hnid, hcons⟩ := hInv
  have hnid' : ∀ (stX : St), stX.items = st.items.filter (fun x => !(x.id == i)) →
      (stX.items.map (fun x => x.id)).Nodup := by
    intro stX hX
    rw [hX]
    exact hnid.sublist ((List.filter_sublist st.items).map (fun x => x.id))
  cases hpre : itemGetById st i with
  | none =>
    have hnone : ∀ x ∈ st.items, ¬(x.id == i) := by
      intro x hx hxi
      have hmem : x ∈ st.items.filter (fun y => y.id == i) := List.mem_filter.mpr ⟨hx, hxi⟩
      rw [itemGetById] at hpre
      rw [List.head?_eq_none_iff.mp hpre] at hmem
      simp at hmem
    have hkeep : st.items.filter (fun x => !(x.id == i)) = st.items :=
      List.filter_eq_self.mpr (by intro a ha; simpa using hnone a ha)
    simp only [itemDelete, hpre]
    exact ⟨by rw [hkeep] at hnid' ⊢; exact hnid' _ rfl, by
      intro l hl
      show l.totalCost = ((List.filter (fun x => x.listId == some l.id) (st.items.filter (fun x => !(x.id == i)))).map (fun x => x.totalCost)).sum
      rw [hkeep]
      exact hcons l hl⟩
  | some e₀ =>
    obtain ⟨he₀, he₀i⟩ := itemGetById_mem st i e₀ hpre
    have huniq : ∀ x ∈ st.items, x.id = i → x = e₀ :=
      fun x hx hxi => List.inj_on_of_nodup_map hnid hx he₀ (by rw [hxi, he₀i])
    have hfilters : ∀ (L : Nat), e₀.listId ≠ some L →
        (st.items.filter (fun x => !(x.id == i))).filter (fun x => x.listId == some L) =
          st.items.filter (fun x => x.listId == some L) := by
      intro L hL
      apply itemsFilter_remove_eq
      intro y hy hyi
      rw [huniq y hy hyi]
      simp [hL]
    simp only [itemDelete, hpre]
    cases he₀L : e₀.listId with
    | none =>
      refine ⟨hnid' _ rfl, ?_⟩
      intro l hl
      have hl' : l ∈ st.lists := hl
      show l.totalCost = ((List.filter (fun x => x.listId == some l.id) (st.items.filter (fun x => !(x.id == i)))).map (fun x => x.totalCost)).sum
      rw [hfilters l.id (by rw [he₀L]; simp)]
      exact hcons l hl'
    | some lid =>
      constructor
      · show ((st.items.filter (fun x => !(x.id == i))).map (fun x => x.id)).Nodup
        exact hnid.sublist ((List.filter_sublist st.items).map (fun x => x.id))
      · apply lutc_consistent
        intro l hl hne
        have hl' : l ∈ st.lists := hl
        show l.totalCost = ((List.filter (fun x => x.listId == some l.id) (st.items.filter (fun x => !(x.id == i)))).map (fun x => x.totalCost)).sum
        rw [hfilters l.id (by rw [he₀L]; simp; exact fun hc => hne hc.symm)]
        exact hcons l hl'

/-- One grocery-item mutation preserves the invariant. -/
theorem runGOp_inv (st st₁ : St) (op : GOp) (hop : op.listFree)
    (h : runGOp st op = some st₁) (hInv : GroInv st) : GroInv st₁ := by
  cases op with
  | create p =>
    cases hc : itemCreate st p with
    | none => rw [runGOp, hc] at h; exact absurd h (by simp)
    | some res =>
      rw [runGOp, hc] at h
      obtain rfl := Option.some.inj h
      exact itemCreate_inv st p res hc hInv
  | update i u =>
    cases hc : itemUpdate st i u with
    | none => rw [runGOp, hc] at h; exact absurd h (by simp)
    | some res =>
      rw [runGOp, hc] at h
      obtain rfl := Option.some.inj h
      exact itemUpdate_inv st i u res hc hop hInv
  | delete i =>
    rw [runGOp] at h
    obtain rfl := Option.some.inj h
    exact itemDelete_inv st i hInv

/-- A sequence of `listId`-free grocery-item mutations preserves the invariant. -/
theorem runGOps_inv (ops : List GOp) : ∀ st st' : St,
    (∀ op ∈ ops, op.listFree) → runGOps ops st = some st' → GroInv st → GroInv st' := by
  induction ops with
  | nil =>
    intro st st' _ h hI
    rw [runGOps, List.foldlM_nil] at h
    obtain rfl := Option.some.inj h
    exact hI
  | cons op ops ih =>
    intro st st' hops h hI
    rw [runGOps, List.foldlM_cons] at h
    cases hc : runGOp st op with
    | none => rw [hc] at h; exact absurd h (by simp)
    | some st₁ =>
      rw [hc] at h
      exact ih st₁ st' (fun o ho => hops o (List.mem_cons_of_mem op ho))
        h (runGOp_inv st st₁ op (hops op (List.mem_cons_self op ops)) hc hI)

end Native

/-! ## C2 — grocery list total invariant -/

/-- Store for the C2 counterexample: item 3 (cost 5) belongs to list 1,
whose stored total is consistent; list 2 is empty. -/
def c2Store : Native.St :=
  { lists := [{ id := 1, name := "L1", totalCost := 5 }, { id := 2, name := "L2", totalCost := 0 }],
    items := [{ id := 3, listId := some 1, name := "x", quantity := 1, pricePerUnit := 5, totalCost := 5 }],
    clock := 10 }

/-- C2 fails as stated: an update that moves item 3 from list 1 to list 2
recomputes only the post-mutation list 2, so list 1 keeps `totalCost = 5`
although it no longer has any items. -/
theorem c2_counterexample_listId_change :
    (Native.runGOps [ .update 3 { listId := some (some 2) } ] c2Store).any
      (fun st => st.lists.any (fun l => l.id == 1 &&
        !(l.totalCost == ((Native.itemsByList st l.id).map (fun x => x.totalCost)).sum))) = true ∧
    (Native.runGOps [ .update 3 { listId := some (some 2) } ] c2Store).any
      (fun st => st.lists.any (fun l => l.id == 2 && l.totalCost == 5)) = true := by
  constructor <;> decide

/-- C2 amended: starting from a store whose item ids are unique and whose
list totals are consistent, after any sequence of `groceryItemService`
create/update/delete calls in which no update payload sets the `listId`
field, every stored grocery list satisfies
`totalCost = Σ item.totalCost` over its current items (each write being a
full recompute of the post-mutation state). An update that changes an
item's `listId` recomputes only the new list and leaves the old list's
total stale, which is what the unamended claim fails on. -/
theorem c2_amended_grocery_invariant (ops : List Native.GOp) (st0 st' : Native.St)
    (h0 : Native.GroInv st0)
    (hops : ∀ op ∈ ops, Native.GOp.listFree op)
    (h : Native.runGOps ops st0 = some st') :
    Native.groceryConsistent st' :=
  (Native.runGOps_inv ops st0 st' hops h h0).2

/-- Witness for C2 amended: one concrete item create into list 1. -/
theorem c2_amended_grocery_invariant_witness :
    Native.groceryConsistent
      { lists := [{ id := 1, name := "L", totalCost := 8 }],
        items := [{ id := 10, listId := some 1, name := "Milk", quantity := 2, pricePerUnit := 4, totalCost := 8 }],
        history := [{ id := 12, itemId := some 10, price := 4, date := 11 }],
        clock := 13 } :=
  c2_amended_grocery_invariant
    [ .create { listId := some 1, name := "Milk", quantity := 2, pricePerUnit := 4, totalCost := 8 } ]
    { lists := [{ id := 1, name := "L", totalCost := 0 }], clock := 10 }
    { lists := [{ id := 1, name := "L", totalCost := 8 }],
      items := [{ id := 10, listId := some 1, name := "Milk", quantity := 2, pricePerUnit := 4, totalCost := 8 }],
      history := [{ id := 12, itemId := some 10, price := 4, date := 11 }],
      clock := 13 }
    (by constructor
        · decide
        · intro l hl
          rw [List.mem_singleton] at hl
          subst hl
          decide)
    (by intro op hop; rw [List.mem_singleton] at hop; subst hop; exact trivial)
    (by decide)

/-! ## C5 — idempotent recurring instantiation -/

namespace Native

/-- `updateMonthlyExpenses` never touches the expenses table. -/
theorem mse_expenses_frame (st st' : St) (m : String)
    (h : msUpdateMonthlyExpenses st m = some st') :
    st'.expenses = st.expenses := by
  cases hgb : msGetByMonth st m with
  | some r =>
    simp only [msUpdateMonthlyExpenses, getOrCreate_of_some st m r hgb, Option.bind_eq_bind,
      Option.some_bind, msUpdate, tick] at h
    obtain rfl := Option.some.inj h
    rfl
  | none =>
    simp only [msUpdateMonthlyExpenses, getOrCreate_of_none st m hgb, Option.bind_eq_bind,
      Option.some_bind, msUpdate, tick] at h
    obtain rfl := Option.some.inj h
    rfl

/-- A successful `expenseService.create` appends exactly its new row to the
expenses table. -/
theorem expCreate_appends (cm : String) (st : St) (p : NewExpense) (r : Option Expense) (st' : St)
    (h : expCreate cm st p = some (r, st')) :
    st'.expenses = st.expenses ++ [newExpenseRow cm st p] := by
  rcases expCreate_spec cm st p with hn | ⟨st₃, hg, hm, heq⟩
  · rw [hn] at h
    cases h
  · rw [heq] at h
    have hsnd : st₃ = st' := congrArg Prod.snd (Option.some.inj h)
    rw [← hsnd]
    exact mse_expenses_frame _ _ _ hm

/-- When every template is already matched or has a falsy `chargeDay`, the
instantiation loop is a no-op. -/
theorem crLoop_skip (cm m : String) (existing : List Expense) (rs : List Expense) (st : St)
    (h : ∀ r ∈ rs, (existing.any (fun x => x.name == r.name && x.category == r.category)) = true ∨
      chargeTruthy r.chargeDay = false) :
    crLoop cm m existing rs st = some st := by
  induction rs with
  | nil => rfl
  | cons r rs ih =>
    have iht := ih fun r' hr' => h r' (List.mem_cons_of_mem r hr')
    rcases h r (List.mem_cons_self r rs) with hex | hcd
    · simp [crLoop, hex, iht]
    · by_cases hex : (existing.any (fun x => x.name == r.name && x.category == r.category)) = true
      · simp [crLoop, hex, iht]
      · simp [crLoop, eq_false_of_ne_true hex, hcd, iht]

/-- What a successful instantiation loop guarantees: the expenses table only
grew by concrete (non-recurring) instances of the target month, and every
template was either matched by the pre-loop snapshot, skipped for lacking a
charge day, or got an instance into the store. -/
theorem crLoop_spec (cm m : String) (existing : List Expense) :
    ∀ (rs : List Expense) (st st' : St), crLoop cm m existing rs st = some st' →
    (∃ added : List Expense, st'.expenses = st.expenses ++ added ∧
      ∀ a ∈ added, a.isRecurring = false ∧ a.month = resolveMonth cm m) ∧
    (∀ r ∈ rs, (existing.any (fun x => x.name == r.name && x.category == r.category)) = true ∨
      chargeTruthy r.chargeDay = false ∨
      ∃ x ∈ st'.expenses, x.name = r.name ∧ x.category = r.category ∧
        x.month = resolveMonth cm m ∧ x.isRecurring = false) := by
  intro rs
  induction rs with
  | nil =>
    intro st st' h
    rw [crLoop] at h
    obtain rfl := Option.some.inj h
    exact ⟨⟨[], by simp, by simp⟩, by simp⟩
  | cons r rs ih =>
    intro st st' h
    by_cases hex : (existing.any (fun x => x.name == r.name && x.category == r.category)) = true
    · rw [crLoop, if_pos hex] at h
      obtain ⟨hshape, hall⟩ := ih st st' h
      refine ⟨hshape, ?_⟩
      intro r' hr'
      rcases List.mem_cons.mp hr' with rfl | hr'
      · exact Or.inl hex
      · exact hall r' hr'
    · by_cases hcd : chargeTruthy r.chargeDay = true
      · rw [crLoop, if_neg (by simp [hex]), if_pos hcd] at h
        cases hc : expCreate cm st (instPayload r m) with
        | none =>
          rw [hc] at h
          cases h
        | some res =>
          obtain ⟨rr, st₁⟩ := res
          rw [hc] at h
          simp only [Option.bind_eq_bind, Option.some_bind] at h
          have happ := expCreate_appends cm st (instPayload r m) rr st₁ hc
          obtain ⟨⟨added, hadd, haddp⟩, hall⟩ := ih st₁ st' h
          have hrowp : (newExpenseRow cm st (instPayload r m)).isRecurring = false ∧
              (newExpenseRow cm st (instPayload r m)).month = resolveMonth cm m := by
            constructor
            · rfl
            · rfl
          refine ⟨⟨[newExpenseRow cm st (instPayload r m)] ++ added, ?_, ?_⟩, ?_⟩
          · rw [hadd, happ, List.append_assoc]
          · intro a ha
            rcases List.mem_append.mp ha with ha | ha
            · rw [List.mem_singleton.mp ha]
              exact hrowp
            · exact haddp a ha
          · intro r' hr'
            rcases List.mem_cons.mp hr' with hreq | hr'
            · rw [hreq]
              right; right
              refine ⟨newExpenseRow cm st (instPayload r m), ?_, rfl, rfl, hrowp.2, hrowp.1⟩
              rw [hadd, happ]
              exact List.mem_append_left _ (List.mem_append_right _ (List.mem_singleton_self _))
            · exact hall r' hr'
      · rw [crLoop, if_neg (by simp [hex]), if_neg (by simp [hcd])] at h
        obtain ⟨hshape, hall⟩ := ih st st' h
        refine ⟨hshape, ?_⟩
        intro r' hr'
        rcases List.mem_cons.mp hr' with rfl | hr'
        · exact Or.inr (Or.inl (eq_false_of_ne_true hcd))
        · exact hall r' hr'

end Native

/-- C5: `createRecurringExpensesForMonth` is idempotent — a second call for
the same month finds, for every recurring template, either a pre-existing
match or the instance created by the first call (same name and category in
the month), so it creates nothing and returns the state unchanged. -/
theorem c5_recurring_instantiation_idempotent (cm m : String) (st st₁ : Native.St)
    (h : Native.expCreateRecurringForMonth cm st m = some st₁) :
    Native.expCreateRecurringForMonth cm st₁ m = some st₁ := by
  unfold Native.expCreateRecurringForMonth at h ⊢
  obtain ⟨⟨added, hadd, haddp⟩, hall⟩ :=
    Native.crLoop_spec cm m (Native.expGetByMonth cm st m) (Native.expGetRecurring st) st st₁ h
  have hrec : Native.expGetRecurring st₁ = Native.expGetRecurring st := by
    unfold Native.expGetRecurring
    rw [hadd, List.filter_append]
    have : added.filter (fun e => e.isRecurring) = [] :=
      List.filter_eq_nil_iff.mpr (fun a ha => by simp [(haddp a ha).1])
    rw [this, List.append_nil]
  rw [hrec]
  apply Native.crLoop_skip
  intro r hr
  rcases hall r hr with hex | hcd | ⟨x, hx, hxn, hxc, hxm, _⟩
  · left
    obtain ⟨y, hy, hyp⟩ := List.any_eq_true.mp hex
    apply List.any_eq_true.mpr
    refine ⟨y, ?_, hyp⟩
    unfold Native.expGetByMonth at hy ⊢
    obtain ⟨hy1, hy2⟩ := List.mem_filter.mp hy
    exact List.mem_filter.mpr ⟨by rw [hadd]; exact List.mem_append_left _ hy1, hy2⟩
  · right
    exact hcd
  · left
    apply List.any_eq_true.mpr
    refine ⟨x, ?_, by simp [hxn, hxc]⟩
    unfold Native.expGetByMonth
    apply List.mem_filter.mpr
    refine ⟨hx, ?_⟩
    simp [hxm, Native.resolveMonth]

/-- The state reached by a first `createRecurringExpensesForMonth("2025-02")`
call on a store holding one recurring template (id 50) and settings. -/
def c5AfterFirst : Native.St :=
  { expenses := [{ id := 50, name := "Rent", amount := 1200, category := "H", dueDate := "d", month := "2025-01", chargeDay := some 1, isRecurring := true },
                 { id := 60, name := "Rent", amount := 1200, category := "H", dueDate := "2025-02-1", month := "2025-02", chargeDay := some 1, isRecurring := false }],
    savings := [{ idTick := 61, month := "2025-02", income := 4500, totalExpenses := 1200, totalSaved := 3300, savingsGoal := 800, updatedAt := .tick 62 }],
    settings := [{ id := "default", monthlyIncome := 4500, savingsGoal := 800 }],
    clock := 63 }

/-- Witness for C5: the second call after a concrete first call is a no-op. -/
theorem c5_recurring_instantiation_idempotent_witness :
    Native.expCreateRecurringForMonth "2025-09" c5AfterFirst "2025-02" = some c5AfterFirst :=
  c5_recurring_instantiation_idempotent "2025-09" "2025-02"
    { expenses := [{ id := 50, name := "Rent", amount := 1200, category := "H", dueDate := "d", month := "2025-01", chargeDay := some 1, isRecurring := true }],
      settings := [{ id := "default", monthlyIncome := 4500, savingsGoal := 800 }], clock := 60 }
    c5AfterFirst
    (by decide)
